/-
Verification of the request-signing and remote-session core of hc-forge
(src/src-tauri/src/api/client.rs, src/src-tauri/src/validators.rs,
src/src-tauri/src/lib.rs) against its natural-language specification.

The Rust code is shallowly embedded: machine words are `Nat` with explicit
`% 2 ^ 32` where overflow matters; strings are processed as their UTF-8 byte
sequences exactly as Rust's `str::as_bytes` exposes them; fallible commands
return `Except`; the asynchronous SSH session registry becomes an explicit
state machine in which every I/O step is driven by an outcome parameter and
side effects (task aborts, channel writes, disconnect attempts) are recorded
in an action trace.

SHA-256 and HMAC-SHA256 (the `sha2`/`hmac` crates used by `client.rs`) are
implemented in full so that digests and signatures are concrete values.
-/
import Mathlib

namespace HcForge

/-! ## Bytes and hex

`str::as_bytes` in Rust exposes the UTF-8 encoding of a string; we model a
Lean `String` the same way, encoding each scalar value to its UTF-8 bytes. -/

/-- UTF-8 encoding of one Unicode scalar value, as a list of byte values. -/
def utf8EncodeChar (c : Char) : List Nat :=
  let n := c.toNat
  if n < 128 then [n]
  else if n < 2048 then [192 + n / 64, 128 + n % 64]
  else if n < 65536 then [224 + n / 4096, 128 + n / 64 % 64, 128 + n % 64]
  else [240 + n / 262144, 128 + n / 4096 % 64, 128 + n / 64 % 64, 128 + n % 64]

/-- The UTF-8 bytes of a string: the view Rust's `str::as_bytes` gives. -/
def utf8Bytes (s : String) : List Nat := s.data.flatMap utf8EncodeChar

/-- Lowercase hexadecimal digit, as produced by `hex::encode`. -/
def hexDigitLower (n : Nat) : Char :=
  if n < 10 then Char.ofNat (48 + n) else Char.ofNat (87 + n)

/-- Uppercase hexadecimal digit, as produced by `format!("{:02X}", _)`. -/
def hexDigitUpper (n : Nat) : Char :=
  if n < 10 then Char.ofNat (48 + n) else Char.ofNat (55 + n)

/-- Lowercase hex rendering of a byte sequence (`hex::encode`). -/
def bytesToHexLower (bs : List Nat) : List Char :=
  bs.flatMap (fun b => [hexDigitLower (b / 16), hexDigitLower (b % 16)])

/-! ## SHA-256 (the `sha2` crate's `Sha256` as used by `client.rs`) -/

/-- `2 ^ 32`, the modulus for 32-bit words. -/
def M32 : Nat := 4294967296

/-- Right rotation of a 32-bit word held in a `Nat`. -/
def rotr32 (x k : Nat) : Nat := x / 2 ^ k + x % 2 ^ k * 2 ^ (32 - k)

/-- The SHA-256 round constants. -/
def sha256K : List Nat :=
  [1116352408, 1899447441, 3049323471, 3921009573, 961987163, 1508970993,
   2453635748, 2870763221, 3624381080, 310598401, 607225278, 1426881987,
   1925078388, 2162078206, 2614888103, 3248222580, 3835390401, 4022224774,
   264347078, 604807628, 770255983, 1249150122, 1555081692, 1996064986,
   2554220882, 2821834349, 2952996808, 3210313671, 3336571891, 3584528711,
   113926993, 338241895, 666307205, 773529912, 1294757372, 1396182291,
   1695183700, 1986661051, 2177026350, 2456956037, 2730485921, 2820302411,
   3259730800, 3345764771, 3516065817, 3600352804, 4094571909, 275423344,
   430227734, 506948616, 659060556, 883997877, 958139571, 1322822218,
   1537002063, 1747873779, 1955562222, 2024104815, 2227730452, 2361852424,
   2428436474, 2756734187, 3204031479, 3329325298]

/-- The eight 32-bit working variables of the SHA-256 compression function. -/
structure Sha256State where
  a : Nat
  b : Nat
  c : Nat
  d : Nat
  e : Nat
  f : Nat
  g : Nat
  h : Nat
deriving DecidableEq, Repr

/-- The SHA-256 initial hash value. -/
def sha256Init : Sha256State :=
  ⟨1779033703, 3144134277, 1013904242, 2773480762, 1359893119, 2600822924, 528734635, 1541459225⟩

def smallSigma0 (x : Nat) : Nat := Nat.xor (Nat.xor (rotr32 x 7) (rotr32 x 18)) (x / 2 ^ 3)

def smallSigma1 (x : Nat) : Nat := Nat.xor (Nat.xor (rotr32 x 17) (rotr32 x 19)) (x / 2 ^ 10)

def bigSigma0 (x : Nat) : Nat := Nat.xor (Nat.xor (rotr32 x 2) (rotr32 x 13)) (rotr32 x 22)

def bigSigma1 (x : Nat) : Nat := Nat.xor (Nat.xor (rotr32 x 6) (rotr32 x 11)) (rotr32 x 25)

/-- Message-schedule extension, building the word list in reverse. -/
def scheduleLoop : Nat → List Nat → List Nat
  | 0, rws => rws
  | n + 1, rws =>
      let w16 := rws.getD 15 0
      let w15 := rws.getD 14 0
      let w7 := rws.getD 6 0
      let w2 := rws.getD 1 0
      scheduleLoop n ((w16 + smallSigma0 w15 + w7 + smallSigma1 w2) % M32 :: rws)

/-- The 64-word SHA-256 message schedule of one 16-word block. -/
def sha256Schedule (w16 : List Nat) : List Nat := (scheduleLoop 48 w16.reverse).reverse

/-- One SHA-256 compression round; `kw` is the round constant paired with the
schedule word. -/
def sha256Round (st : Sha256State) (kw : Nat × Nat) : Sha256State :=
  let ch := Nat.xor (Nat.land st.e st.f) (Nat.land (Nat.xor st.e 4294967295) st.g)
  let temp1 := (st.h + bigSigma1 st.e + ch + kw.1 + kw.2) % M32
  let maj := Nat.xor (Nat.xor (Nat.land st.a st.b) (Nat.land st.a st.c)) (Nat.land st.b st.c)
  let temp2 := (bigSigma0 st.a + maj) % M32
  ⟨(temp1 + temp2) % M32, st.a, st.b, st.c, (st.d + temp1) % M32, st.e, st.f, st.g⟩

/-- Compression of one 16-word block into the running hash value. -/
def compressBlock (hs : Sha256State) (w16 : List Nat) : Sha256State :=
  let fin := (sha256K.zip (sha256Schedule w16)).foldl sha256Round hs
  ⟨(hs.a + fin.a) % M32, (hs.b + fin.b) % M32, (hs.c + fin.c) % M32, (hs.d + fin.d) % M32,
   (hs.e + fin.e) % M32, (hs.f + fin.f) % M32, (hs.g + fin.g) % M32, (hs.h + fin.h) % M32⟩

/-- Big-endian packing of bytes into 32-bit words. -/
def bytesToWords : List Nat → List Nat
  | a :: b :: c :: d :: rest => (((a * 256 + b) * 256 + c) * 256 + d) :: bytesToWords rest
  | _ => []

/-- Big-endian unpacking of one 32-bit word into four bytes. -/
def word32ToBytes (n : Nat) : List Nat :=
  [n / 16777216 % 256, n / 65536 % 256, n / 256 % 256, n % 256]

/-- The 64-bit big-endian length field of the SHA-256 padding. -/
def lenBytes64 (n : Nat) : List Nat :=
  [n / 2 ^ 56 % 256, n / 2 ^ 48 % 256, n / 2 ^ 40 % 256, n / 2 ^ 32 % 256,
   n / 2 ^ 24 % 256, n / 2 ^ 16 % 256, n / 2 ^ 8 % 256, n % 256]

/-- SHA-256 padding: `0x80`, zeros to a 56-byte boundary, 64-bit bit length. -/
def padBytes (msg : List Nat) : List Nat :=
  let L := msg.length
  msg ++ 128 :: List.replicate ((64 - (L + 9) % 64) % 64) 0 ++ lenBytes64 (L * 8)

def chunksGo : Nat → List Nat → List (List Nat)
  | 0, _ => []
  | n + 1, l => l.take 64 :: chunksGo n (l.drop 64)

/-- Split a (padded) byte sequence into 64-byte blocks. -/
def chunk64 (l : List Nat) : List (List Nat) := chunksGo (l.length / 64) l

/-- The SHA-256 digest (32 bytes) of a byte sequence. -/
def sha256Bytes (msg : List Nat) : List Nat :=
  let fin := (chunk64 (padBytes msg)).foldl
    (fun hs block => compressBlock hs (bytesToWords block)) sha256Init
  word32ToBytes fin.a ++ word32ToBytes fin.b ++ word32ToBytes fin.c ++ word32ToBytes fin.d ++
  word32ToBytes fin.e ++ word32ToBytes fin.f ++ word32ToBytes fin.g ++ word32ToBytes fin.h

/-- `sha256_hex` from `client.rs`: lowercase SHA-256 hex of a string's bytes. -/
def sha256_hex (input : String) : String := ⟨bytesToHexLower (sha256Bytes (utf8Bytes input))⟩

/-- HMAC-SHA256 over byte sequences (the `hmac` crate's `Hmac<Sha256>`). -/
def hmacSha256Bytes (key msg : List Nat) : List Nat :=
  let k0 := if key.length > 64 then sha256Bytes key else key
  let kp := k0 ++ List.replicate (64 - k0.length) 0
  let ipad := kp.map (fun b => Nat.xor b 54)
  let opad := kp.map (fun b => Nat.xor b 92)
  sha256Bytes (opad ++ sha256Bytes (ipad ++ msg))

/-- Lowercase hex HMAC-SHA256 of a message string under a key string, as
`hex::encode(mac.finalize().into_bytes())` produces in `build_request`. -/
def hmac_sha256_hex (key msg : String) : String :=
  ⟨bytesToHexLower (hmacSha256Bytes (utf8Bytes key) (utf8Bytes msg))⟩

/-! ## Kernel-computable string utilities

`String.splitOn`, `String.trim` and `toString : Nat → String` from the Lean
library are not used because they do not reduce inside the kernel; the
following structurally recursive equivalents model the corresponding Rust
operations (`str::split`, `str::trim`, integer `Display`). -/

/-- Rust's `str::split(sep)`: splits at every occurrence, keeping empty
components (so `"a&&b"` yields `["a", "", "b"]` and `""` yields `[""]`). -/
def splitOnChar (sep : Char) : List Char → List (List Char)
  | [] => [[]]
  | c :: rest =>
      if c = sep then [] :: splitOnChar sep rest
      else
        match splitOnChar sep rest with
        | l :: ls => (c :: l) :: ls
        | [] => [[c]]

/-- `str::split('&')` on a string, components as strings. -/
def splitAmp (q : String) : List String := (splitOnChar '&' q.data).map (fun l => ⟨l⟩)

/-- The whitespace test of Rust's `str::trim` restricted to the ASCII
whitespace characters that can occur in the trimmed inputs here. -/
def isWsChar (c : Char) : Bool :=
  c.toNat == 32 || c.toNat == 9 || c.toNat == 10 || c.toNat == 13

/-- Rust's `str::trim`. -/
def rustTrim (s : String) : String :=
  ⟨((s.data.dropWhile isWsChar).reverse.dropWhile isWsChar).reverse⟩

def natDigitsGo : Nat → Nat → List Char
  | 0, _ => []
  | fuel + 1, n =>
      if n < 10 then [Char.ofNat (48 + n)]
      else natDigitsGo fuel (n / 10) ++ [Char.ofNat (48 + n % 10)]

/-- Decimal rendering of a natural number (integer `Display` in Rust). -/
def natToString (n : Nat) : String := ⟨natDigitsGo (n + 1) n⟩

/-! ## Canonicalizer (`canonicalize_path`, `canonicalize_query` in client.rs) -/

/-- `is_unreserved` from `client.rs`: `A-Z a-z 0-9 - . _ ~`. -/
def is_unreserved (byte : Nat) : Bool :=
  (65 ≤ byte && byte ≤ 90) || (97 ≤ byte && byte ≤ 122) || (48 ≤ byte && byte ≤ 57) ||
  byte == 45 || byte == 46 || byte == 95 || byte == 126

/-- `percent_encode_byte` from `client.rs`: `format!("%{:02X}", byte)`. -/
def percent_encode_byte (byte : Nat) : List Char :=
  ['%', hexDigitUpper (byte / 16), hexDigitUpper (byte % 16)]

/-- The per-byte branch of the loop inside `canonicalize_path`. -/
def encodePathByte (b : Nat) : List Char :=
  if b == 47 then ['/']
  else if is_unreserved b then [Char.ofNat b]
  else percent_encode_byte b

/-- `canonicalize_path` from `client.rs`. -/
def canonicalize_path (path : String) : String :=
  if path = "" then "/"
  else
    let encoded := (utf8Bytes path).flatMap encodePathByte
    if encoded.getLast? = some '/' then ⟨encoded⟩ else ⟨encoded ++ ['/']⟩

/-- `encode_rfc3986` from `client.rs`. -/
def encode_rfc3986 (input : String) : String :=
  ⟨(utf8Bytes input).flatMap
    (fun b => if is_unreserved b then [Char.ofNat b] else percent_encode_byte b)⟩

/-- Split a character list at the first occurrence of `sep`
(Rust's `str::split_once`). -/
def splitOnceChar (sep : Char) : List Char → Option (List Char × List Char)
  | [] => none
  | c :: rest =>
      if c = sep then some ([], rest)
      else
        match splitOnceChar sep rest with
        | some (pre, post) => some (c :: pre, post)
        | none => none

/-- The `split_once('=')` step of `canonicalize_query`: a missing `=` yields
the whole component as name and an empty value. -/
def queryPair (part : String) : String × String :=
  match splitOnceChar '=' part.data with
  | some (n, v) => (⟨n⟩, ⟨v⟩)
  | none => (part, "")

/-- Byte-wise comparison of strings. The compared strings are percent-encoded
and therefore ASCII, where scalar-value order and UTF-8 byte order agree with
Rust's `str::cmp`. -/
def cmpChars : List Char → List Char → Ordering
  | [], [] => .eq
  | [], _ :: _ => .lt
  | _ :: _, [] => .gt
  | a :: as, b :: bs =>
      if a.toNat < b.toNat then .lt
      else if b.toNat < a.toNat then .gt
      else cmpChars as bs

/-- The comparator of `canonicalize_query`:
`a.0.cmp(&b.0).then(a.1.cmp(&b.1))`. -/
def pairCmp (a b : String × String) : Ordering :=
  match cmpChars a.1.data b.1.data with
  | .eq => cmpChars a.2.data b.2.data
  | o => o

/-- Strict `lt` test used to drive the stable sort. -/
def pairLt (a b : String × String) : Bool :=
  match pairCmp a b with
  | .lt => true
  | _ => false

/-- Stable insertion of `x` into a sorted list: `x` is placed before the first
element not strictly below it, so elements comparing equal keep their original
relative order. -/
def insertSorted (x : String × String) : List (String × String) → List (String × String)
  | [] => [x]
  | y :: ys => if pairLt y x then y :: insertSorted x ys else x :: y :: ys

/-- Stable sort by `pairCmp`, modelling Rust's stable `sort_by`: the unique
permutation that is sorted under the comparator and preserves the relative
order of elements that compare equal. -/
def stableSortPairs : List (String × String) → List (String × String)
  | [] => []
  | x :: xs => insertSorted x (stableSortPairs xs)

/-- The encoded name/value pairs the `for part in query.split('&')` loop of
`canonicalize_query` accumulates: empty components are skipped
(`if part.is_empty() { continue; }`). -/
def queryPairsOf (parts : List String) : List (String × String) :=
  parts.filterMap (fun part =>
    if part = "" then none
    else
      some (encode_rfc3986 (queryPair part).1, encode_rfc3986 (queryPair part).2))

/-- `canonicalize_query` from `client.rs`. -/
def canonicalize_query (query : Option String) : String :=
  match query with
  | none => ""
  | some q =>
      let pairs := queryPairsOf (splitAmp q)
      let sorted := stableSortPairs pairs
      String.intercalate "&" (sorted.map (fun p => p.1 ++ "=" ++ p.2))

/-- `split_path_query` from `client.rs`: `path.split_once('?')`. -/
def split_path_query (path : String) : String × Option String :=
  match splitOnceChar '?' path.data with
  | some (p, q) => (⟨p⟩, some ⟨q⟩)
  | none => (path, none)

/-! ## Signer (`build_request` in client.rs)

`Utc::now()` is an effect of the environment; the timestamp is therefore a
parameter `x_sdk_date` of the embedded function, exactly as it is interpolated
into the canonical request and string to sign. -/

def SIGNING_ALGORITHM : String := "SDK-HMAC-SHA256"

def SIGNED_HEADERS : String := "host;x-sdk-date"

/-- ASCII uppercasing as applied by `method.as_str().to_uppercase()` (HTTP
method names are ASCII). -/
def ascii_to_uppercase (s : String) : String :=
  ⟨s.data.map (fun c =>
    if 97 ≤ c.toNat ∧ c.toNat ≤ 122 then Char.ofNat (c.toNat - 32) else c)⟩

/-- The signing-relevant outputs of `build_request`. -/
structure SignedRequest where
  canonical_path : String
  canonical_query : String
  payload_hash : String
  canonical_request : String
  string_to_sign : String
  signature : String
  authorization : String
deriving DecidableEq, Repr

/-- `build_request` from `client.rs`, restricted to the pure derivation of the
canonical request, string to sign, signature and authorization header. -/
def build_request (method host path : String) (body : Option String)
    (x_sdk_date access_key secret_key : String) : SignedRequest :=
  let pq := split_path_query path
  let canonical_path := canonicalize_path pq.1
  let canonical_query := canonicalize_query pq.2
  let payload_hash := sha256_hex (body.getD "")
  let canonical_request :=
    ascii_to_uppercase method ++ "\n" ++ canonical_path ++ "\n" ++ canonical_query ++
    "\nhost:" ++ host ++ "\nx-sdk-date:" ++ x_sdk_date ++ "\n\n" ++
    SIGNED_HEADERS ++ "\n" ++ payload_hash
  let string_to_sign :=
    SIGNING_ALGORITHM ++ "\n" ++ x_sdk_date ++ "\n" ++ sha256_hex canonical_request
  let signature := hmac_sha256_hex secret_key string_to_sign
  let authorization :=
    SIGNING_ALGORITHM ++ " Access=" ++ access_key ++ ", SignedHeaders=" ++ SIGNED_HEADERS ++
    ", Signature=" ++ signature
  ⟨canonical_path, canonical_query, payload_hash, canonical_request,
   string_to_sign, signature, authorization⟩

/-! ## Transport client (send_json / send_raw and the EIP version fallback)

The HTTP exchange itself is an effect; each issued request is driven by an
`HttpOutcome` describing what the code observes: either a status/body pair or
a transport-level failure (connection error or unreadable response body). The
JSON decode step of `send_json` is likewise driven by a `parse_ok` flag. -/

/-- What one HTTP exchange yields to the client code. -/
inductive HttpOutcome where
  | response (status : Nat) (body : String)
  | transportError (msg : String)
deriving DecidableEq, Repr

/-- `StatusCode::is_success`: the 2xx range. -/
def is_success (status : Nat) : Bool := 200 ≤ status && status ≤ 299

/-- `send_raw` from `client.rs`: returns the status and body unconditionally,
failing only on transport errors. -/
def send_raw_model (o : HttpOutcome) : Except String (Nat × String) :=
  match o with
  | .transportError m => .error ("Request failed: " ++ m)
  | .response s b => .ok (s, b)

/-- `send_json` from `client.rs`: fails on transport errors, on any non-2xx
status, and on a JSON decode failure; otherwise returns the decoded body
(modelled by the raw body string). -/
def send_json_model (o : HttpOutcome) (parse_ok : Bool) : Except String String :=
  match o with
  | .transportError m => .error ("Request failed: " ++ m)
  | .response s b =>
      if is_success s then
        if parse_ok then .ok b else .error "Failed to parse JSON response"
      else .error ("Huawei Cloud API returned " ++ natToString s)

/-- `list_eips` from `client.rs`, from the point where the v3 request is
issued: on any `send_json` error the v1 path is tried and its result returned.
The second component records whether the v1 fallback request was issued. -/
def list_eips_model (v3 v1 : HttpOutcome) (parse3 parse1 : Bool) :
    Except String String × Bool :=
  match send_json_model v3 parse3 with
  | .ok response => (.ok response, false)
  | .error _ =>
      (match send_json_model v1 parse1 with
       | .ok response => .ok response
       | .error e => .error ("Failed to list EIPs (v1 fallback): " ++ e), true)

/-- `delete_eip` from `client.rs`, from the point where the v3 request is
issued: a v3 transport error propagates; a v3 response with status other than
404/405 is returned as-is; on 404 or 405 the v1 path is tried and its result
returned. The second component records whether the v1 request was issued. -/
def delete_eip_model (v3 v1 : HttpOutcome) : Except String (Nat × String) × Bool :=
  match send_raw_model v3 with
  | .error e => (.error e, false)
  | .ok sb =>
      if sb.1 ≠ 404 ∧ sb.1 ≠ 405 then (.ok sb, false)
      else (send_raw_model v1, true)

/-- `list_ecses` from `client.rs`, from the point where its single request is
issued: one fixed-version endpoint, no retry of any kind. Representative of
every endpoint other than EIP listing/deletion. -/
def list_ecses_model (o : HttpOutcome) (parse_ok : Bool) : Except String String :=
  match send_json_model o parse_ok with
  | .ok response => .ok response
  | .error e => .error ("Failed to list ECSes: " ++ e)

/-! ## Validators (validators.rs) -/

/-- `normalize_ssh_session_id` from `validators.rs`. -/
def normalize_ssh_session_id (input : String) : Except String String :=
  let session_id := rustTrim input
  if session_id = "" then .error "SSH session ID is required."
  else .ok session_id

/-- ASCII lowercasing (`str::to_ascii_lowercase`). -/
def ascii_to_lowercase (s : String) : String :=
  ⟨s.data.map (fun c =>
    if 65 ≤ c.toNat ∧ c.toNat ≤ 90 then Char.ofNat (c.toNat + 32) else c)⟩

/-- `control_char_from_input` from `validators.rs`. -/
def control_char_from_input (input : String) : Except String Nat :=
  let normalized := ascii_to_lowercase (rustTrim input)
  if normalized = "c" ∨ normalized = "ctrl+c" then .ok 3
  else if normalized = "d" ∨ normalized = "ctrl+d" then .ok 4
  else if normalized = "u" ∨ normalized = "ctrl+u" then .ok 21
  else
    .error ("Unsupported control sequence '" ++ rustTrim input ++
      "'. Use Ctrl+C, Ctrl+D, or Ctrl+U.")

/-! ## SSH session registry (lib.rs)

The registry `HashMap<String, SshSessionEntry>` is modelled as an association
list with at most one binding per key (insertion removes the key first, like
`HashMap::insert`). Each spawned background reader task is a `TaskRec`;
`JoinHandle::abort` sets its `aborted` flag. Every network I/O step of a
command is driven by an outcome parameter, and the externally visible side
effects of a call are returned as a list of `SshAction`s. -/

/-- The registry value: the data of `SshSessionEntry` in `lib.rs`, with the
connection handle and write half represented by the session itself and the
`JoinHandle` by the id of the spawned reader task. -/
structure SshSessionEntry where
  taskId : Nat
  host : String
  port : Nat
  username : String
deriving DecidableEq, Repr

/-- One spawned background reader task. -/
structure TaskRec where
  tid : Nat
  sid : String
  aborted : Bool
deriving DecidableEq, Repr

/-- The shared state behind `SshSessionStore` plus the set of ever-spawned
reader tasks. `nextTask` is a fresh-id counter. -/
structure SshState where
  sessions : List (String × SshSessionEntry)
  tasks : List TaskRec
  nextTask : Nat
deriving DecidableEq, Repr

/-- `HashMap::get`-style lookup on the association list. -/
def lookupS : List (String × SshSessionEntry) → String → Option SshSessionEntry
  | [], _ => none
  | (k, v) :: rest, s => if k = s then some v else lookupS rest s

/-- `HashMap::remove`: drop every binding of the key (at most one on a
well-formed list). -/
def removeS : List (String × SshSessionEntry) → String → List (String × SshSessionEntry)
  | [], _ => []
  | (k, v) :: rest, s => if k = s then removeS rest s else (k, v) :: removeS rest s

/-- `HashMap::insert`: bind `k` to `v`, replacing any previous binding. -/
def insertS (m : List (String × SshSessionEntry)) (k : String) (v : SshSessionEntry) :
    List (String × SshSessionEntry) :=
  (k, v) :: removeS m k

/-- `JoinHandle::abort` of the task with id `tid`. -/
def abortTask (tasks : List TaskRec) (tid : Nat) : List TaskRec :=
  tasks.map (fun t => if t.tid = tid then ⟨t.tid, t.sid, true⟩ else t)

/-- The reader tasks of session `sid` that are still live (never aborted). -/
def liveTasksFor (tasks : List TaskRec) (sid : String) : List TaskRec :=
  tasks.filter (fun t => t.sid == sid && !t.aborted)

/-- Externally visible side effects of a session-manager call. -/
inductive SshAction where
  | abortReader (tid : Nat)
  | gracefulDisconnect (ok : Bool)
  | writeData (payload : String)
  | windowChange (cols rows pixelWidth pixelHeight : Nat)
  | channelEof (ok : Bool)
  | channelClose (ok : Bool)
deriving DecidableEq, Repr

/-- Where `ssh_connect` can fail after validation. -/
inductive ConnectFailure where
  | transport
  | authError
  | authRejected
  | channelOpen
  | pty
  | shell
deriving DecidableEq, Repr

structure SshConnectParams where
  session_id : String
  host : String
  port : Option Nat
  username : Option String
  password : String
deriving DecidableEq, Repr

structure SshConnectResult where
  session_id : String
  host : String
  port : Nat
  username : String
deriving DecidableEq, Repr

/-- `ssh_connect` from `lib.rs`. `outcome = none` means every I/O step up to
the shell request succeeds; `some f` makes step `f` fail. The graceful
disconnect of a stale session is best-effort (`let _ = ...`), so its success
flag is irrelevant to the result; it is fixed to `true` in the trace. -/
def ssh_connect (st : SshState) (params : SshConnectParams)
    (outcome : Option ConnectFailure) :
    Except String SshConnectResult × SshState × List SshAction :=
  match normalize_ssh_session_id params.session_id with
  | .error e => (.error e, st, [])
  | .ok session_id =>
    let host := rustTrim params.host
    if host = "" then (.error "SSH host is required.", st, [])
    else
      let port := params.port.getD 22
      let username :=
        match params.username.map rustTrim with
        | some u => if u = "" then "root" else u
        | none => "root"
      let password := rustTrim params.password
      if password = "" then (.error "SSH password is required.", st, [])
      else
        let stale := lookupS st.sessions session_id
        let st1 : SshState :=
          match stale with
          | some e => ⟨removeS st.sessions session_id, abortTask st.tasks e.taskId, st.nextTask⟩
          | none => ⟨removeS st.sessions session_id, st.tasks, st.nextTask⟩
        let evictActs : List SshAction :=
          match stale with
          | some e => [.abortReader e.taskId, .gracefulDisconnect true]
          | none => []
        match outcome with
        | some .transport =>
            (.error ("SSH connection failed to " ++ host ++ ":" ++ natToString port ++ "."),
             st1, evictActs)
        | some .authError =>
            (.error ("SSH authentication failed for " ++ username ++ "@" ++ host ++ ":" ++
              natToString port ++ "."), st1, evictActs)
        | some .authRejected =>
            (.error ("SSH authentication rejected for " ++ username ++ "@" ++ host ++ ":" ++
              natToString port ++ "."), st1, evictActs)
        | some .channelOpen =>
            (.error "Failed to open interactive SSH channel.", st1, evictActs)
        | some .pty => (.error "Failed to request SSH PTY.", st1, evictActs)
        | some .shell => (.error "Failed to request SSH shell.", st1, evictActs)
        | none =>
            let entry : SshSessionEntry := ⟨st1.nextTask, host, port, username⟩
            (.ok ⟨session_id, host, port, username⟩,
             ⟨insertS st1.sessions session_id entry,
              st1.tasks ++ [⟨st1.nextTask, session_id, false⟩],
              st1.nextTask + 1⟩,
             evictActs)

structure SshExecParams where
  session_id : String
  command : String
deriving DecidableEq, Repr

structure SshExecResult where
  session_id : String
  command : String
  stdout : String
  stderr : String
  exit_status : Option Nat
deriving DecidableEq, Repr

/-- `ssh_exec` from `lib.rs`: remove the entry, write `command + "\n"`, and
reinsert only when the write succeeded; on failure abort the reader task. -/
def ssh_exec (st : SshState) (params : SshExecParams) (ioOk : Bool) :
    Except String SshExecResult × SshState × List SshAction :=
  match normalize_ssh_session_id params.session_id with
  | .error e => (.error e, st, [])
  | .ok session_id =>
    let command := rustTrim params.command
    if command = "" then (.error "SSH command is required.", st, [])
    else
      match lookupS st.sessions session_id with
      | none =>
          (.error ("No SSH connection found for session " ++ session_id ++ "."), st, [])
      | some entry =>
          let st1 : SshState := ⟨removeS st.sessions session_id, st.tasks, st.nextTask⟩
          let payload := command ++ "\n"
          if ioOk then
            (.ok ⟨session_id, command, "", "", none⟩,
             ⟨insertS st1.sessions session_id entry, st1.tasks, st1.nextTask⟩,
             [.writeData payload])
          else
            (.error "Failed to send command to live SSH shell.",
             ⟨st1.sessions, abortTask st1.tasks entry.taskId, st1.nextTask⟩,
             [.writeData payload, .abortReader entry.taskId])

structure SshResizeParams where
  session_id : String
  cols : Nat
  rows : Nat
  pixel_width : Option Nat
  pixel_height : Option Nat
deriving DecidableEq, Repr

structure SshResizeResult where
  session_id : String
  cols : Nat
  rows : Nat
deriving DecidableEq, Repr

/-- Rust's `Ord::clamp`. -/
def rustClamp (x lo hi : Nat) : Nat := if x < lo then lo else if hi < x then hi else x

/-- `ssh_resize` from `lib.rs`. -/
def ssh_resize (st : SshState) (params : SshResizeParams) (ioOk : Bool) :
    Except String SshResizeResult × SshState × List SshAction :=
  match normalize_ssh_session_id params.session_id with
  | .error e => (.error e, st, [])
  | .ok session_id =>
    let cols := rustClamp params.cols 40 400
    let rows := rustClamp params.rows 10 180
    let pixel_width := params.pixel_width.getD 0
    let pixel_height := params.pixel_height.getD 0
    match lookupS st.sessions session_id with
    | none =>
        (.error ("No SSH connection found for session " ++ session_id ++ "."), st, [])
    | some entry =>
        let st1 : SshState := ⟨removeS st.sessions session_id, st.tasks, st.nextTask⟩
        if ioOk then
          (.ok ⟨session_id, cols, rows⟩,
           ⟨insertS st1.sessions session_id entry, st1.tasks, st1.nextTask⟩,
           [.windowChange cols rows pixel_width pixel_height])
        else
          (.error ("Failed to resize SSH PTY for session " ++ session_id ++ "."),
           ⟨st1.sessions, abortTask st1.tasks entry.taskId, st1.nextTask⟩,
           [.windowChange cols rows pixel_width pixel_height, .abortReader entry.taskId])

structure SshSendControlParams where
  session_id : String
  control : String
deriving DecidableEq, Repr

structure SshSendControlResult where
  session_id : String
  control : String
  sent : Bool
deriving DecidableEq, Repr

/-- `ssh_send_control` from `lib.rs`. -/
def ssh_send_control (st : SshState) (params : SshSendControlParams) (ioOk : Bool) :
    Except String SshSendControlResult × SshState × List SshAction :=
  match normalize_ssh_session_id params.session_id with
  | .error e => (.error e, st, [])
  | .ok session_id =>
    let control := rustTrim params.control
    match control_char_from_input control with
    | .error e => (.error e, st, [])
    | .ok control_byte =>
      match lookupS st.sessions session_id with
      | none =>
          (.error ("No SSH connection found for session " ++ session_id ++ "."), st, [])
      | some entry =>
          let st1 : SshState := ⟨removeS st.sessions session_id, st.tasks, st.nextTask⟩
          if ioOk then
            (.ok ⟨session_id, control, true⟩,
             ⟨insertS st1.sessions session_id entry, st1.tasks, st1.nextTask⟩,
             [.writeData ⟨[Char.ofNat control_byte]⟩])
          else
            (.error ("Failed to send " ++ control ++ " to SSH session " ++ session_id ++ "."),
             ⟨st1.sessions, abortTask st1.tasks entry.taskId, st1.nextTask⟩,
             [.writeData ⟨[Char.ofNat control_byte]⟩, .abortReader entry.taskId])

structure SshDisconnectParams where
  session_id : String
deriving DecidableEq, Repr

structure SshDisconnectResult where
  session_id : String
  disconnected : Bool
deriving DecidableEq, Repr

/-- `ssh_disconnect` from `lib.rs`: remove the entry if present, close the
write half, abort the reader task, attempt a graceful disconnect (errors only
logged), and report whether a session existed. -/
def ssh_disconnect (st : SshState) (params : SshDisconnectParams) :
    Except String SshDisconnectResult × SshState × List SshAction :=
  match normalize_ssh_session_id params.session_id with
  | .error e => (.error e, st, [])
  | .ok session_id =>
    match lookupS st.sessions session_id with
    | none => (.ok ⟨session_id, false⟩, st, [])
    | some entry =>
        (.ok ⟨session_id, true⟩,
         ⟨removeS st.sessions session_id, abortTask st.tasks entry.taskId, st.nextTask⟩,
         [.channelClose true, .abortReader entry.taskId, .gracefulDisconnect true])

/-! ## Registry well-formedness -/

/-- No key is bound twice. -/
def keysNodup : List (String × SshSessionEntry) → Bool
  | [] => true
  | (k, _) :: rest => !(rest.any (fun p => p.1 == k)) && keysNodup rest

/-- No task id is used twice. -/
def tidsNodup : List TaskRec → Bool
  | [] => true
  | t :: rest => !(rest.any (fun u => u.tid == t.tid)) && tidsNodup rest

/-- A live task is registered: its session is in the registry and points back
to it. -/
def taskRegistered (st : SshState) (t : TaskRec) : Bool :=
  match lookupS st.sessions t.sid with
  | some e => e.taskId == t.tid
  | none => false

/-- Well-formedness of the registry state: keys and task ids are unique, task
ids are below the fresh counter, every registered session has exactly one live
reader task (the one its entry names), and every live task is registered. -/
def wf (st : SshState) : Bool :=
  keysNodup st.sessions &&
  tidsNodup st.tasks &&
  st.tasks.all (fun t => t.tid < st.nextTask) &&
  st.sessions.all (fun p => liveTasksFor st.tasks p.1 == [⟨p.2.taskId, p.1, false⟩]) &&
  st.tasks.all (fun t => t.aborted || taskRegistered st t)

/-! ## One-shot executor (`ssh_exec_one_shot` in lib.rs) -/

/-- Where `ssh_exec_one_shot` can fail between validation and the message
loop. -/
inductive OneShotFailure where
  | transport
  | authError
  | authRejected
  | channelOpen
  | pty
  | execRequest
deriving DecidableEq, Repr

/-- The channel messages `channel.wait()` can deliver to the one-shot loop. -/
inductive ChannelMsg where
  | data (text : String)
  | extendedData (text : String)
  | exitStatus (code : Nat)
  | eof
  | close
  | other
deriving DecidableEq, Repr

structure SshExecOneShotParams where
  session_id : String
  host : String
  port : Option Nat
  username : Option String
  password : String
  command : String
deriving DecidableEq, Repr

structure SshExecOneShotResult where
  session_id : String
  host : String
  port : Nat
  username : String
  command : String
  stdout : String
  stderr : String
  exit_status : Option Nat
deriving DecidableEq, Repr

/-- One iteration of the `while let Some(message) = channel.wait().await`
loop of `ssh_exec_one_shot`, folding over `(stdout, stderr, exit_status)`. -/
def oneShotStep (acc : String × String × Option Nat) (msg : ChannelMsg) :
    String × String × Option Nat :=
  match msg with
  | .data text => (acc.1 ++ text, acc.2.1, acc.2.2)
  | .extendedData text => (acc.1, acc.2.1 ++ text, acc.2.2)
  | .exitStatus code => (acc.1, acc.2.1, some code)
  | .eof => acc
  | .close => acc
  | .other => acc

/-- The whole message loop: it consumes every delivered message and cannot
itself fail; a stream that ends mid-command simply leaves `exit_status`
unset. -/
def oneShotLoop (msgs : List ChannelMsg) : String × String × Option Nat :=
  msgs.foldl oneShotStep ("", "", none)

/-- `ssh_exec_one_shot` from `lib.rs`. `phase = none` means setup succeeded
and the message loop ran over `msgs`; teardown outcomes `eofOk`, `closeOk`,
`disconnectOk` are recorded in the trace but never touch the result, because
the code discards the first two (`let _ = ...`) and only logs the third. -/
def ssh_exec_one_shot (params : SshExecOneShotParams) (phase : Option OneShotFailure)
    (msgs : List ChannelMsg) (eofOk closeOk disconnectOk : Bool) :
    Except String SshExecOneShotResult × List SshAction :=
  match normalize_ssh_session_id params.session_id with
  | .error e => (.error e, [])
  | .ok session_id =>
    let host := rustTrim params.host
    if host = "" then (.error "SSH host is required.", [])
    else
      let command := rustTrim params.command
      if command = "" then (.error "SSH command is required.", [])
      else
        let port := params.port.getD 22
        let username :=
          match params.username.map rustTrim with
          | some u => if u = "" then "root" else u
          | none => "root"
        let password := rustTrim params.password
        if password = "" then (.error "SSH password is required.", [])
        else
          match phase with
          | some .transport =>
              (.error ("SSH connection failed to " ++ host ++ ":" ++ natToString port ++ "."), [])
          | some .authError =>
              (.error ("SSH authentication failed for " ++ username ++ "@" ++ host ++ ":" ++
                natToString port ++ "."), [])
          | some .authRejected =>
              (.error ("SSH authentication rejected for " ++ username ++ "@" ++ host ++ ":" ++
                natToString port ++ "."), [])
          | some .channelOpen => (.error "Failed to open SSH exec channel.", [])
          | some .pty => (.error "Failed to request SSH PTY.", [])
          | some .execRequest => (.error "Failed to execute remote command.", [])
          | none =>
              let out := oneShotLoop msgs
              (.ok ⟨session_id, host, port, username, command, out.1, out.2.1, out.2.2⟩,
               [.channelEof eofOk, .channelClose closeOk, .gracefulDisconnect disconnectOk])

/-! ## The spec's wording of query canonicalization (for refinement checks) -/

/-- One component mapped to its encoded pair the way §4.1 of the spec words
it: split on the first `=` (a missing `=` yields an empty value),
percent-encode name and value independently. -/
def specQueryPair (comp : String) : String × String :=
  match splitOnceChar '=' comp.data with
  | some nv => (encode_rfc3986 ⟨nv.1⟩, encode_rfc3986 ⟨nv.2⟩)
  | none => (encode_rfc3986 comp, encode_rfc3986 "")

/-- The query canonicalization algorithm exactly as the spec words it: split
on `&`; map every component to a pair; stable-sort by encoded name then
encoded value; join with `&` as `name=value`. No special treatment of empty
components. -/
def canonicalizeQuerySpec (q : String) : String :=
  String.intercalate "&"
    ((stableSortPairs ((splitAmp q).map specQueryPair)).map (fun p => p.1 ++ "=" ++ p.2))

/-- The spec's algorithm amended minimally: empty `&`-separated components
are dropped before pairing. -/
def canonicalizeQuerySpecDropped (q : String) : String :=
  String.intercalate "&"
    ((stableSortPairs (((splitAmp q).filter (fun comp => comp ≠ "")).map specQueryPair)).map
      (fun p => p.1 ++ "=" ++ p.2))

/-! ## Shared lemmas -/

theorem sha256_hex_empty :
    sha256_hex "" = "e3b0c44298fc1c149afbf4c8996fb92427ae41e4649b934ca495991b7852b855" := by
  decide

theorem encoded_queryPair_eq_specQueryPair (part : String) :
    (encode_rfc3986 (queryPair part).1, encode_rfc3986 (queryPair part).2) =
      specQueryPair part := by
  unfold queryPair specQueryPair
  cases h : splitOnceChar '=' part.data with
  | none => rfl
  | some nv => rfl

theorem filterMap_skip_empty (f : String → String × String) (l : List String) :
    l.filterMap (fun x => if x = "" then none else some (f x)) =
      (l.filter (fun x => x ≠ "")).map f := by
  induction l with
  | nil => rfl
  | cons p ps ih =>
      by_cases hp : p = ""
      · simp [List.filterMap_cons, List.filter_cons, hp, ih]
      · simp [List.filterMap_cons, List.filter_cons, hp, ih]

theorem queryPairsOf_eq (parts : List String) :
    queryPairsOf parts = (parts.filter (fun comp => comp ≠ "")).map specQueryPair := by
  have h := filterMap_skip_empty
    (fun part => (encode_rfc3986 (queryPair part).1, encode_rfc3986 (queryPair part).2)) parts
  unfold queryPairsOf
  rw [h, funext encoded_queryPair_eq_specQueryPair]

theorem build_request_eq_of_canonical (m h p1 p2 : String) (b : Option String) (t a k : String)
    (h1 : canonicalize_path (split_path_query p1).1 = canonicalize_path (split_path_query p2).1)
    (h2 : canonicalize_query (split_path_query p1).2 = canonicalize_query (split_path_query p2).2) :
    build_request m h p1 b t a k = build_request m h p2 b t a k := by
  simp only [build_request]
  rw [h1, h2]

theorem char_toNat_lt (c : Char) : c.toNat < 1114112 := by
  have h := c.valid
  rcases h with h | h
  · exact Nat.lt_trans h (by norm_num)
  · exact h.2

theorem toNat_ofNat_lt (n : Nat) (h : n < 55296) : (Char.ofNat n).toNat = n := by
  simp [Char.ofNat, Nat.isValidChar, h, Char.ofNatAux, Char.toNat, UInt32.toNat,
    BitVec.toNat_ofNatLt]

theorem is_unreserved_lt (b : Nat) (h : is_unreserved b = true) : b < 55296 := by
  unfold is_unreserved at h
  simp only [Bool.or_eq_true, Bool.and_eq_true, decide_eq_true_eq, beq_iff_eq] at h
  omega

theorem is_unreserved_char (b : Nat) (h : is_unreserved b = true) :
    is_unreserved (Char.ofNat b).toNat = true := by
  rw [toNat_ofNat_lt b (is_unreserved_lt b h)]
  exact h

theorem hexDigitUpper_unreserved (n : Nat) (h : n < 16) :
    is_unreserved (hexDigitUpper n).toNat = true := by
  interval_cases n <;> decide

theorem utf8EncodeChar_lt (c : Char) (b : Nat) (hb : b ∈ utf8EncodeChar c) : b < 256 := by
  have hc := char_toNat_lt c
  simp only [utf8EncodeChar] at hb
  split_ifs at hb <;> simp only [List.mem_cons, List.mem_singleton, List.not_mem_nil,
    or_false] at hb <;> omega

theorem utf8Bytes_lt (s : String) (b : Nat) (hb : b ∈ utf8Bytes s) : b < 256 := by
  rw [utf8Bytes, List.mem_flatMap] at hb
  obtain ⟨c, _, hcb⟩ := hb
  exact utf8EncodeChar_lt c b hcb

theorem encodePathByte_allowed (b : Nat) (hb : b < 256) (c : Char)
    (hc : c ∈ encodePathByte b) :
    is_unreserved c.toNat = true ∨ c = '/' ∨ c = '%' := by
  unfold encodePathByte at hc
  split_ifs at hc with h47 hun
  · right; left
    simpa using hc
  · left
    simp only [List.mem_singleton] at hc
    subst hc
    exact is_unreserved_char b hun
  · unfold percent_encode_byte at hc
    simp only [List.mem_cons, List.mem_singleton, List.not_mem_nil, or_false] at hc
    rcases hc with hc | hc | hc
    · right; right; exact hc
    · left; subst hc; exact hexDigitUpper_unreserved (b / 16) (by omega)
    · left; subst hc; exact hexDigitUpper_unreserved (b % 16) (by omega)

/-! ## Registry lemmas -/

theorem lookupS_removeS (m : List (String × SshSessionEntry)) (s k : String) :
    lookupS (removeS m s) k = if k = s then none else lookupS m k := by
  induction m with
  | nil => simp [removeS, lookupS]
  | cons p rest ih =>
      obtain ⟨pk, pv⟩ := p
      by_cases hpk : pk = s
      · subst hpk
        rw [removeS, if_pos rfl, ih]
        by_cases hk : k = pk
        · subst hk
          rw [if_pos rfl, if_pos rfl]
        · rw [if_neg hk, if_neg hk, lookupS, if_neg (fun h => hk h.symm)]
      · rw [removeS, if_neg hpk, lookupS]
        by_cases hk : pk = k
        · subst hk
          rw [if_pos rfl, if_neg (fun h => hpk h), lookupS, if_pos rfl]
        · rw [if_neg hk, ih, lookupS, if_neg hk]

theorem lookupS_insertS (m : List (String × SshSessionEntry)) (k : String)
    (v : SshSessionEntry) (x : String) :
    lookupS (insertS m k v) x = if x = k then some v else lookupS m x := by
  unfold insertS
  by_cases hx : k = x
  · subst hx
    simp [lookupS]
  · simp [lookupS, hx, lookupS_removeS, Ne.symm hx]

theorem mem_removeS (m : List (String × SshSessionEntry)) (s : String)
    (p : String × SshSessionEntry) (hp : p ∈ removeS m s) : p.1 ≠ s ∧ p ∈ m := by
  induction m with
  | nil => simp [removeS] at hp
  | cons q rest ih =>
      obtain ⟨qk, qv⟩ := q
      by_cases hqk : qk = s
      · rw [removeS, if_pos hqk] at hp
        obtain ⟨h1, h2⟩ := ih hp
        exact ⟨h1, List.mem_cons_of_mem _ h2⟩
      · rw [removeS, if_neg hqk] at hp
        rcases List.mem_cons.mp hp with h | h
        · subst h
          exact ⟨hqk, List.mem_cons_self _ _⟩
        · obtain ⟨h1, h2⟩ := ih h
          exact ⟨h1, List.mem_cons_of_mem _ h2⟩

theorem lookupS_some_mem (m : List (String × SshSessionEntry)) (k : String)
    (v : SshSessionEntry) (h : lookupS m k = some v) : (k, v) ∈ m := by
  induction m with
  | nil => simp [lookupS] at h
  | cons p rest ih =>
      obtain ⟨pk, pv⟩ := p
      by_cases hpk : pk = k
      · subst hpk
        rw [lookupS, if_pos rfl] at h
        obtain rfl : pv = v := by injection h
        exact List.mem_cons_self _ _
      · rw [lookupS, if_neg hpk] at h
        exact List.mem_cons_of_mem _ (ih h)

theorem keysNodup_removeS (m : List (String × SshSessionEntry)) (s : String)
    (h : keysNodup m = true) : keysNodup (removeS m s) = true := by
  induction m with
  | nil => rfl
  | cons p rest ih =>
      obtain ⟨pk, pv⟩ := p
      rw [keysNodup, Bool.and_eq_true] at h
      by_cases hpk : pk = s
      · rw [removeS, if_pos hpk]
        exact ih h.2
      · rw [removeS, if_neg hpk, keysNodup, Bool.and_eq_true]
        refine ⟨?_, ih h.2⟩
        have h1 := h.1
        rw [Bool.not_eq_true'] at h1 ⊢
        rw [List.any_eq_false] at h1 ⊢
        intro q hq
        exact h1 q (mem_removeS rest s q hq).2

theorem removeS_no_key (m : List (String × SshSessionEntry)) (s : String) :
    (removeS m s).any (fun p => p.1 == s) = false := by
  rw [List.any_eq_false]
  intro p hp
  simpa using (mem_removeS m s p hp).1

theorem keysNodup_insertS (m : List (String × SshSessionEntry)) (k : String)
    (v : SshSessionEntry) (h : keysNodup m = true) : keysNodup (insertS m k v) = true := by
  rw [insertS, keysNodup, Bool.and_eq_true]
  exact ⟨by rw [removeS_no_key m k]; rfl, keysNodup_removeS m k h⟩

/-! ## Task lemmas -/

theorem mem_liveTasksFor (ts : List TaskRec) (sid : String) (t : TaskRec) :
    t ∈ liveTasksFor ts sid ↔ t ∈ ts ∧ t.sid = sid ∧ t.aborted = false := by
  simp [liveTasksFor, List.mem_filter, Bool.and_eq_true, and_assoc]

theorem liveTasksFor_append (ts us : List TaskRec) (sid : String) :
    liveTasksFor (ts ++ us) sid = liveTasksFor ts sid ++ liveTasksFor us sid := by
  simp [liveTasksFor, List.filter_append]

theorem liveTasksFor_abortTask (ts : List TaskRec) (tid : Nat) (sid : String) :
    liveTasksFor (abortTask ts tid) sid =
      (liveTasksFor ts sid).filter (fun t => !(t.tid == tid)) := by
  unfold liveTasksFor abortTask
  rw [List.filter_map, List.filter_filter]
  have hpt : ∀ t : TaskRec,
      (((fun t : TaskRec => t.sid == sid && !t.aborted) ∘
        (fun t : TaskRec => if t.tid = tid then ⟨t.tid, t.sid, true⟩ else t)) t) =
      ((t.sid == sid && !t.aborted) && !(t.tid == tid)) := by
    intro t
    by_cases htid : t.tid = tid
    · simp [Function.comp, htid]
    · simp [Function.comp, htid]
  rw [List.filter_congr (fun t _ => hpt t)]
  have hkeep : ∀ t ∈ ts.filter (fun t : TaskRec => (t.sid == sid && !t.aborted) && !(t.tid == tid)),
      (if t.tid = tid then (⟨t.tid, t.sid, true⟩ : TaskRec) else t) = t := by
    intro t ht
    have := List.of_mem_filter ht
    rw [Bool.and_eq_true] at this
    have htid : ¬ t.tid = tid := by simpa using this.2
    rw [if_neg htid]
  rw [List.map_congr_left hkeep, List.map_id']
  have hcomm : ∀ t : TaskRec,
      ((t.sid == sid && !t.aborted) && !(t.tid == tid)) =
      (!(t.tid == tid) && (t.sid == sid && !t.aborted)) := by
    intro t
    exact Bool.and_comm _ _
  rw [List.filter_congr (fun t _ => hcomm t)]

theorem abortTask_mem (ts : List TaskRec) (tid : Nat) (u : TaskRec)
    (hu : u ∈ abortTask ts tid) :
    ∃ t ∈ ts, u = if t.tid = tid then (⟨t.tid, t.sid, true⟩ : TaskRec) else t := by
  rw [abortTask, List.mem_map] at hu
  obtain ⟨t, ht, hut⟩ := hu
  exact ⟨t, ht, hut.symm⟩

theorem abortTask_any_tid (ts : List TaskRec) (tid x : Nat) :
    (abortTask ts tid).any (fun u => u.tid == x) = ts.any (fun u => u.tid == x) := by
  unfold abortTask
  rw [List.any_map]
  have hfun : ((fun u : TaskRec => u.tid == x) ∘
      (fun t : TaskRec => if t.tid = tid then ⟨t.tid, t.sid, true⟩ else t)) =
      (fun u : TaskRec => u.tid == x) := by
    funext t
    by_cases htid : t.tid = tid
    · simp [Function.comp, htid]
    · simp [Function.comp, htid]
  rw [hfun]

theorem tidsNodup_abortTask (ts : List TaskRec) (tid : Nat)
    (h : tidsNodup ts = true) : tidsNodup (abortTask ts tid) = true := by
  induction ts with
  | nil => rfl
  | cons t rest ih =>
      rw [tidsNodup, Bool.and_eq_true] at h
      rw [abortTask, List.map_cons]
      by_cases htid : t.tid = tid
      · rw [if_pos htid, tidsNodup, Bool.and_eq_true]
        constructor
        · show (!((abortTask rest tid).any fun u => u.tid == t.tid)) = true
          rw [abortTask_any_tid]
          exact h.1
        · exact ih h.2
      · rw [if_neg htid, tidsNodup, Bool.and_eq_true]
        constructor
        · show (!((abortTask rest tid).any fun u => u.tid == t.tid)) = true
          rw [abortTask_any_tid]
          exact h.1
        · exact ih h.2

theorem tid_unique (ts : List TaskRec) (h : tidsNodup ts = true) (t u : TaskRec)
    (ht : t ∈ ts) (hu : u ∈ ts) (htu : t.tid = u.tid) : t = u := by
  induction ts with
  | nil => simp at ht
  | cons v rest ih =>
      rw [tidsNodup, Bool.and_eq_true] at h
      have hnone : ∀ w ∈ rest, ¬ (w.tid = v.tid) := by
        intro w hw
        have h1 := h.1
        rw [Bool.not_eq_true', List.any_eq_false] at h1
        intro hcontra
        exact absurd (by simpa using hcontra) (by simpa using h1 w hw)
      rcases List.mem_cons.mp ht with h1 | h1 <;> rcases List.mem_cons.mp hu with h2 | h2
      · subst h1; subst h2; rfl
      · subst h1
        exact absurd htu.symm (hnone u h2)
      · subst h2
        exact absurd htu (hnone t h1)
      · exact ih h.2 h1 h2

theorem tidsNodup_append_fresh (ts : List TaskRec) (t : TaskRec)
    (h : tidsNodup ts = true) (hfresh : ts.all (fun u => !(u.tid == t.tid)) = true) :
    tidsNodup (ts ++ [t]) = true := by
  induction ts with
  | nil => simp [tidsNodup]
  | cons v rest ih =>
      rw [tidsNodup, Bool.and_eq_true] at h
      rw [List.all_cons, Bool.and_eq_true] at hfresh
      rw [List.cons_append, tidsNodup, Bool.and_eq_true]
      constructor
      · rw [Bool.not_eq_true', List.any_eq_false]
        intro u hu
        rcases List.mem_append.mp hu with h1 | h1
        · have hh := h.1
          rw [Bool.not_eq_true', List.any_eq_false] at hh
          exact hh u h1
        · obtain rfl : u = t := by simpa using h1
          have hv := hfresh.1
          rw [Bool.not_eq_true', beq_eq_false_iff_ne] at hv
          simp only [beq_iff_eq]
          exact fun hc => hv hc.symm
      · exact ih h.2 hfresh.2

/-! ## Well-formedness lemmas -/

theorem wf_iff (st : SshState) : wf st = true ↔
    keysNodup st.sessions = true ∧
    tidsNodup st.tasks = true ∧
    (∀ t ∈ st.tasks, t.tid < st.nextTask) ∧
    (∀ p ∈ st.sessions, liveTasksFor st.tasks p.1 = [⟨p.2.taskId, p.1, false⟩]) ∧
    (∀ t ∈ st.tasks, t.aborted = true ∨ taskRegistered st t = true) := by
  unfold wf
  simp [List.all_eq_true, Bool.and_eq_true, Bool.or_eq_true, beq_iff_eq,
    decide_eq_true_eq, and_assoc]

theorem removeS_of_lookup_none (m : List (String × SshSessionEntry)) (s : String)
    (h : lookupS m s = none) : removeS m s = m := by
  induction m with
  | nil => rfl
  | cons p rest ih =>
      obtain ⟨pk, pv⟩ := p
      by_cases hpk : pk = s
      · subst hpk
        rw [lookupS, if_pos rfl] at h
        cases h
      · rw [lookupS, if_neg hpk] at h
        rw [removeS, if_neg hpk, ih h]

theorem liveTasksFor_nil_of_unreg (st : SshState) (sid : String)
    (hreg : ∀ t ∈ st.tasks, t.aborted = true ∨ taskRegistered st t = true)
    (hnone : lookupS st.sessions sid = none) :
    liveTasksFor st.tasks sid = [] := by
  rw [List.eq_nil_iff_forall_not_mem]
  intro t ht
  rw [mem_liveTasksFor] at ht
  obtain ⟨hmem, hsid, hab⟩ := ht
  rcases hreg t hmem with h | h
  · rw [hab] at h
    cases h
  · unfold taskRegistered at h
    rw [hsid, hnone] at h
    cases h

theorem liveTasksFor_singleton_self (n : Nat) (sid : String) :
    liveTasksFor [⟨n, sid, false⟩] sid = [⟨n, sid, false⟩] := by
  simp [liveTasksFor]

theorem liveTasksFor_singleton_other (n : Nat) (sid s : String) (h : s ≠ sid) :
    liveTasksFor [⟨n, sid, false⟩] s = [] := by
  simp [liveTasksFor]
  intro hcontra
  exact absurd hcontra.symm h

theorem wf_reinsert (st : SshState) (sid : String) (e : SshSessionEntry)
    (hwf : wf st = true) (hl : lookupS st.sessions sid = some e) :
    wf ⟨insertS (removeS st.sessions sid) sid e, st.tasks, st.nextTask⟩ = true := by
  rw [wf_iff] at hwf ⊢
  obtain ⟨hk, htn, hlt, hlive, hreg⟩ := hwf
  have hlookup_eq : ∀ k,
      lookupS (insertS (removeS st.sessions sid) sid e) k = lookupS st.sessions k := by
    intro k
    rw [lookupS_insertS, lookupS_removeS]
    by_cases hks : k = sid
    · subst hks
      rw [if_pos rfl]
      exact hl.symm
    · rw [if_neg hks, if_neg hks]
  refine ⟨keysNodup_insertS _ _ _ (keysNodup_removeS _ _ hk), htn, hlt, ?_, ?_⟩
  · intro p hp
    unfold insertS at hp
    rcases List.mem_cons.mp hp with hp1 | hp1
    · subst hp1
      exact hlive (sid, e) (lookupS_some_mem _ _ _ hl)
    · exact hlive p (mem_removeS _ _ _ (mem_removeS _ _ _ hp1).2).2
  · intro t ht
    rcases hreg t ht with h | h
    · exact Or.inl h
    · right
      unfold taskRegistered at h ⊢
      rw [hlookup_eq t.sid]
      exact h

theorem wf_evict (st : SshState) (sid : String) (e : SshSessionEntry)
    (hwf : wf st = true) (hl : lookupS st.sessions sid = some e) :
    wf ⟨removeS st.sessions sid, abortTask st.tasks e.taskId, st.nextTask⟩ = true := by
  rw [wf_iff] at hwf ⊢
  obtain ⟨hk, htn, hlt, hlive, hreg⟩ := hwf
  have hτe : (⟨e.taskId, sid, false⟩ : TaskRec) ∈ st.tasks := by
    have hs := hlive (sid, e) (lookupS_some_mem _ _ _ hl)
    have hmem : (⟨e.taskId, sid, false⟩ : TaskRec) ∈ liveTasksFor st.tasks sid := by
      rw [hs]
      exact List.mem_singleton_self _
    exact ((mem_liveTasksFor _ _ _).mp hmem).1
  refine ⟨keysNodup_removeS _ _ hk, tidsNodup_abortTask _ _ htn, ?_, ?_, ?_⟩
  · intro t ht
    obtain ⟨t0, ht0, hform⟩ := abortTask_mem _ _ _ ht
    subst hform
    by_cases h0 : t0.tid = e.taskId
    · rw [if_pos h0]
      exact hlt t0 ht0
    · rw [if_neg h0]
      exact hlt t0 ht0
  · intro p hp
    have hpm := mem_removeS _ _ _ hp
    have horig := hlive p hpm.2
    rw [liveTasksFor_abortTask, horig]
    have hτp : (⟨p.2.taskId, p.1, false⟩ : TaskRec) ∈ st.tasks := by
      have hmem : (⟨p.2.taskId, p.1, false⟩ : TaskRec) ∈ liveTasksFor st.tasks p.1 := by
        rw [horig]
        exact List.mem_singleton_self _
      exact ((mem_liveTasksFor _ _ _).mp hmem).1
    have hne : p.2.taskId ≠ e.taskId := by
      intro hcontra
      have heq := tid_unique st.tasks htn _ _ hτp hτe (by simpa using hcontra)
      have hps : p.1 = sid := congrArg TaskRec.sid heq
      exact hpm.1 hps
    rw [List.filter_cons, if_pos (by simpa using hne), List.filter_nil]
  · intro t ht
    obtain ⟨t0, ht0, hform⟩ := abortTask_mem _ _ _ ht
    subst hform
    by_cases h0 : t0.tid = e.taskId
    · rw [if_pos h0]
      exact Or.inl rfl
    · rw [if_neg h0]
      rcases hreg t0 ht0 with h | h
      · exact Or.inl h
      · right
        unfold taskRegistered at h ⊢
        rw [lookupS_removeS]
        by_cases hts : t0.sid = sid
        · rw [hts, hl] at h
          exact absurd (beq_iff_eq.mp h).symm h0
        · rw [if_neg hts]
          exact h

theorem wf_connect_insert (st : SshState) (sid host username : String) (port : Nat)
    (hwf : wf st = true) (hnone : lookupS st.sessions sid = none) :
    wf ⟨insertS st.sessions sid ⟨st.nextTask, host, port, username⟩,
        st.tasks ++ [⟨st.nextTask, sid, false⟩], st.nextTask + 1⟩ = true := by
  rw [wf_iff] at hwf ⊢
  obtain ⟨hk, htn, hlt, hlive, hreg⟩ := hwf
  refine ⟨keysNodup_insertS _ _ _ hk, ?_, ?_, ?_, ?_⟩
  · apply tidsNodup_append_fresh _ _ htn
    rw [List.all_eq_true]
    intro t ht
    have := hlt t ht
    simp only [Bool.not_eq_true', beq_eq_false_iff_ne]
    omega
  · intro t ht
    rcases List.mem_append.mp ht with h | h
    · exact Nat.lt_trans (hlt t h) (Nat.lt_succ_self _)
    · obtain rfl : t = ⟨st.nextTask, sid, false⟩ := by simpa using h
      exact Nat.lt_succ_self _
  · intro p hp
    unfold insertS at hp
    rcases List.mem_cons.mp hp with hp1 | hp1
    · subst hp1
      rw [liveTasksFor_append, liveTasksFor_nil_of_unreg st sid hreg hnone,
        List.nil_append]
      exact liveTasksFor_singleton_self _ _
    · have hpm := mem_removeS _ _ _ hp1
      rw [liveTasksFor_append, hlive p hpm.2,
        liveTasksFor_singleton_other _ _ _ hpm.1, List.append_nil]
  · intro t ht
    rcases List.mem_append.mp ht with h | h
    · rcases hreg t h with h1 | h1
      · exact Or.inl h1
      · right
        unfold taskRegistered at h1 ⊢
        rw [lookupS_insertS]
        by_cases hts : t.sid = sid
        · rw [hts, hnone] at h1
          cases h1
        · rw [if_neg hts]
          exact h1
    · obtain rfl : t = ⟨st.nextTask, sid, false⟩ := by simpa using h
      right
      unfold taskRegistered
      rw [lookupS_insertS, if_pos rfl]
      simp

theorem normalize_ok (s : String) (h : rustTrim s ≠ "") :
    normalize_ssh_session_id s = .ok (rustTrim s) := by
  unfold normalize_ssh_session_id
  rw [if_neg h]

theorem lookupS_reinsert (m : List (String × SshSessionEntry)) (sid : String)
    (e : SshSessionEntry) (hl : lookupS m sid = some e) (k : String) :
    lookupS (insertS (removeS m sid) sid e) k = lookupS m k := by
  rw [lookupS_insertS, lookupS_removeS]
  by_cases hks : k = sid
  · subst hks
    rw [if_pos rfl]
    exact hl.symm
  · rw [if_neg hks, if_neg hks]

/-! ## Claim theorems -/

/-- C1: every request built by the signer has the fixed canonical-request
layout `METHOD\nCANONICAL_PATH\nCANONICAL_QUERY\nhost:HOST\n`
`x-sdk-date:TIMESTAMP\n\nhost;x-sdk-date\nPAYLOAD_HASH`; the string to sign is
`SDK-HMAC-SHA256\nTIMESTAMP\nhex(sha256(canonical_request))`; the payload hash
is the SHA-256 hex of the raw body when present and of the empty string (the
concrete digest `e3b0c4...b855`, not a null sentinel) when absent. -/
theorem build_request_canonical_layout (method host path : String) (body : Option String)
    (x_sdk_date access_key secret_key b : String) :
    (build_request method host path body x_sdk_date access_key secret_key).canonical_request =
      ascii_to_uppercase method ++ "\n" ++ canonicalize_path (split_path_query path).1 ++ "\n" ++
      canonicalize_query (split_path_query path).2 ++ "\n" ++ "host:" ++ host ++ "\n" ++
      "x-sdk-date:" ++ x_sdk_date ++ "\n" ++ "\n" ++ "host;x-sdk-date" ++ "\n" ++
      (build_request method host path body x_sdk_date access_key secret_key).payload_hash
    ∧ (build_request method host path body x_sdk_date access_key secret_key).string_to_sign =
        "SDK-HMAC-SHA256" ++ "\n" ++ x_sdk_date ++ "\n" ++
        sha256_hex
          (build_request method host path body x_sdk_date access_key secret_key).canonical_request
    ∧ (build_request method host path (some b) x_sdk_date access_key secret_key).payload_hash =
        sha256_hex b
    ∧ (build_request method host path none x_sdk_date access_key secret_key).payload_hash =
        sha256_hex ""
    ∧ (build_request method host path none x_sdk_date access_key secret_key).payload_hash =
        "e3b0c44298fc1c149afbf4c8996fb92427ae41e4649b934ca495991b7852b855" := by
  refine ⟨?_, rfl, rfl, rfl, sha256_hex_empty⟩
  have hph : (build_request method host path body x_sdk_date access_key secret_key).payload_hash =
      sha256_hex (body.getD "") := rfl
  rw [hph]
  show ascii_to_uppercase method ++ "\n" ++ canonicalize_path (split_path_query path).1 ++ "\n" ++
    canonicalize_query (split_path_query path).2 ++
    "\nhost:" ++ host ++ "\nx-sdk-date:" ++ x_sdk_date ++ "\n\n" ++ SIGNED_HEADERS ++ "\n" ++
    sha256_hex (body.getD "") = _
  rw [show ("\nhost:" : String) = "\n" ++ "host:" from rfl,
    show ("\nx-sdk-date:" : String) = "\n" ++ "x-sdk-date:" from rfl,
    show ("\n\n" : String) = "\n" ++ "\n" from rfl]
  simp [String.append_assoc, SIGNED_HEADERS]

/-- C2: `canonicalize_path` maps the empty path to `/`; its output always
ends with `/`; every output character is an unreserved byte, the literal `/`,
or the `%` of a percent-escape (whose hex digits are themselves unreserved);
per byte, unreserved bytes and `/` pass through unencoded and every other
byte becomes its `%XX` escape; and
`canonicalize_path "/v1/project id/cloudservers" =
"/v1/project%20id/cloudservers/"`. -/
theorem canonicalize_path_properties :
    canonicalize_path "" = "/"
    ∧ (∀ p, (canonicalize_path p).data.getLast? = some '/')
    ∧ (∀ p c, c ∈ (canonicalize_path p).data →
        is_unreserved c.toNat = true ∨ c = '/' ∨ c = '%')
    ∧ (∀ b, is_unreserved b = true → encodePathByte b = [Char.ofNat b])
    ∧ encodePathByte 47 = ['/']
    ∧ (∀ b, is_unreserved b = false → b ≠ 47 → encodePathByte b = percent_encode_byte b)
    ∧ canonicalize_path "/v1/project id/cloudservers" = "/v1/project%20id/cloudservers/" := by
  refine ⟨rfl, ?_, ?_, ?_, rfl, ?_, by decide⟩
  · intro p
    unfold canonicalize_path
    by_cases hp : p = ""
    · rw [if_pos hp]
      rfl
    · rw [if_neg hp]
      by_cases hlast : ((utf8Bytes p).flatMap encodePathByte).getLast? = some '/'
      · rw [if_pos hlast]
        exact hlast
      · rw [if_neg hlast]
        exact List.getLast?_concat _
  · intro p c hc
    unfold canonicalize_path at hc
    by_cases hp : p = ""
    · rw [if_pos hp] at hc
      right; left
      simpa using hc
    · rw [if_neg hp] at hc
      have key : c ∈ (utf8Bytes p).flatMap encodePathByte →
          is_unreserved c.toNat = true ∨ c = '/' ∨ c = '%' := by
        intro hmem
        rw [List.mem_flatMap] at hmem
        obtain ⟨b, hb, hcb⟩ := hmem
        exact encodePathByte_allowed b (utf8Bytes_lt p b hb) c hcb
      by_cases hlast : ((utf8Bytes p).flatMap encodePathByte).getLast? = some '/'
      · rw [if_pos hlast] at hc
        exact key hc
      · rw [if_neg hlast] at hc
        rcases List.mem_append.mp hc with hmem | hmem
        · exact key hmem
        · right; left
          simpa using hmem
  · intro b hun
    have h47 : ¬ (b == 47) = true := by
      intro hcontra
      rw [beq_iff_eq] at hcontra
      subst hcontra
      exact absurd hun (by decide)
    unfold encodePathByte
    rw [if_neg (by simpa using h47), if_pos hun]
  · intro b hun h47
    unfold encodePathByte
    rw [if_neg (by simpa using h47)]
    rw [hun]
    rfl

/-- C2 (witness): the membership and per-byte branches applied at concrete
inputs — the character `v` of `canonicalize_path "/v1"` is in the allowed
set, byte `118` (`v`) passes through unencoded, and byte `32` (space) becomes
`%20`. -/
theorem canonicalize_path_properties_witness :
    (is_unreserved 'v'.toNat = true ∨ 'v' = '/' ∨ 'v' = '%')
    ∧ encodePathByte 118 = [Char.ofNat 118]
    ∧ encodePathByte 32 = percent_encode_byte 32 :=
  ⟨canonicalize_path_properties.2.2.1 "/v1" 'v' (by decide),
   canonicalize_path_properties.2.2.2.1 118 (by decide),
   canonicalize_path_properties.2.2.2.2.2.1 32 (by decide) (by decide)⟩

/-- C3 (counterexample): the claim says `canonicalize_query (some q)` equals
the split/encode/sort/join algorithm for every `q`, with a missing `=`
yielding an empty value for every component; at `q = "&"` the code yields `""`
while that algorithm yields `"=&="`, because the code drops empty
components. -/
theorem canonicalize_query_spec_counterexample :
    canonicalize_query (some "&") = "" ∧ canonicalizeQuerySpec "&" = "=&=" ∧
      canonicalize_query (some "&") ≠ canonicalizeQuerySpec "&" := by
  refine ⟨by decide, by decide, by decide⟩

/-- C3 (amended): `canonicalize_query (some q)` equals the result of splitting
`q` on `&`, dropping empty components, splitting each remaining component on
the first `=` (a missing `=` yields an empty value), percent-encoding name and
value independently, stable-sorting byte-wise by encoded name then encoded
value, and joining as `name=value` with `&`; an absent query canonicalizes to
the empty string; the claim's two examples hold. -/
theorem canonicalize_query_matches_spec_dropped :
    (∀ q, canonicalize_query (some q) = canonicalizeQuerySpecDropped q)
    ∧ canonicalize_query none = ""
    ∧ canonicalize_query (some "z=last&name=a b&a=first") = "a=first&name=a%20b&z=last"
    ∧ canonicalize_query (some "foo&bar=baz") = "bar=baz&foo=" := by
  refine ⟨?_, rfl, by decide, by decide⟩
  intro q
  show String.intercalate "&"
      ((stableSortPairs (queryPairsOf (splitAmp q))).map (fun p => p.1 ++ "=" ++ p.2)) = _
  rw [queryPairsOf_eq]
  rfl

/-- C10: `canonicalize_query` drops empty `&`-separated components: the pair
list it builds is unchanged by first removing empty components, and
`canonicalize_query (some "a=1&&b=2") = "a=1&b=2"`,
`canonicalize_query (some "&") = ""`. -/
theorem canonicalize_query_drops_empty_components :
    (∀ parts, queryPairsOf parts = queryPairsOf (parts.filter (fun comp => comp ≠ "")))
    ∧ canonicalize_query (some "a=1&&b=2") = "a=1&b=2"
    ∧ canonicalize_query (some "&") = "" := by
  refine ⟨?_, by decide, by decide⟩
  intro parts
  rw [queryPairsOf_eq, queryPairsOf_eq, List.filter_filter]
  simp

/-- C8 (counterexample): the claim says inputs differing in exactly one
component — "such as swapped query parameter order before canonicalization" —
produce different signatures; these two requests differ exactly in the path's
query string (`z=1&a=2` vs `a=2&z=1`) yet produce identical signatures,
because canonicalization sorts the pairs. -/
theorem signing_swapped_query_counterexample :
    ("/v1/pid/cloudservers?z=1&a=2" : String) ≠ "/v1/pid/cloudservers?a=2&z=1"
    ∧ (build_request "GET" "ecs.eu-west-101.myhuaweicloud.com" "/v1/pid/cloudservers?z=1&a=2"
        none "20260101T000000Z" "AK" "SECRET").signature =
      (build_request "GET" "ecs.eu-west-101.myhuaweicloud.com" "/v1/pid/cloudservers?a=2&z=1"
        none "20260101T000000Z" "AK" "SECRET").signature := by
  refine ⟨by decide, ?_⟩
  rw [build_request_eq_of_canonical "GET" "ecs.eu-west-101.myhuaweicloud.com"
    "/v1/pid/cloudservers?z=1&a=2" "/v1/pid/cloudservers?a=2&z=1" none
    "20260101T000000Z" "AK" "SECRET" (by decide) (by decide)]

set_option maxRecDepth 40000 in
set_option maxHeartbeats 4000000 in
/-- C8 (amended): signing is deterministic — identical
`(method, host, path, body, timestamp, access_key, secret_key)` always produce
the identical signed request — but adjacent-input distinctness fails: inputs
differing only in pre-canonicalization query parameter order produce identical
signatures (canonicalization sorts the pairs), while inputs differing in the
body do produce different signatures on the concrete example below. -/
theorem signing_deterministic (m1 h1 p1 : String) (b1 : Option String) (t1 a1 k1 : String)
    (m2 h2 p2 : String) (b2 : Option String) (t2 a2 k2 : String) :
    (m1 = m2 → h1 = h2 → p1 = p2 → b1 = b2 → t1 = t2 → a1 = a2 → k1 = k2 →
      build_request m1 h1 p1 b1 t1 a1 k1 = build_request m2 h2 p2 b2 t2 a2 k2)
    ∧ (build_request "GET" "h.example.com" "/v1/p?b=2&a=1" none
        "20260101T000000Z" "AK" "SK").signature =
      (build_request "GET" "h.example.com" "/v1/p?a=1&b=2" none
        "20260101T000000Z" "AK" "SK").signature
    ∧ (build_request "GET" "h.example.com" "/v1/p" (some "{}")
        "20260101T000000Z" "AK" "SK").signature ≠
      (build_request "GET" "h.example.com" "/v1/p" none
        "20260101T000000Z" "AK" "SK").signature := by
  refine ⟨?_, ?_, ?_⟩
  · intro e1 e2 e3 e4 e5 e6 e7
    subst e1; subst e2; subst e3; subst e4; subst e5; subst e6; subst e7
    rfl
  · rw [build_request_eq_of_canonical "GET" "h.example.com" "/v1/p?b=2&a=1" "/v1/p?a=1&b=2"
      none "20260101T000000Z" "AK" "SK" (by decide) (by decide)]
  · decide

/-- C8 (witness): the determinism branch applied at concrete equal inputs. -/
theorem signing_deterministic_witness :
    build_request "GET" "h.example.com" "/v1/p" none "20260101T000000Z" "AK" "SK" =
      build_request "GET" "h.example.com" "/v1/p" none "20260101T000000Z" "AK" "SK" :=
  (signing_deterministic "GET" "h.example.com" "/v1/p" none "20260101T000000Z" "AK" "SK"
    "GET" "h.example.com" "/v1/p" none "20260101T000000Z" "AK" "SK").1
    rfl rfl rfl rfl rfl rfl rfl

/-- C6 (counterexample): the claim says the v1 retry happens exactly on HTTP
404/405; for elastic-IP listing a v3 response with status `500` — neither 404
nor 405 — also triggers the v1 fallback, whose result is returned. -/
theorem eip_list_fallback_on_500_counterexample :
    list_eips_model (HttpOutcome.response 500 "boom") (HttpOutcome.response 200 "ok") true true =
      (Except.ok "ok", true) ∧ (500 : Nat) ≠ 404 ∧ (500 : Nat) ≠ 405 :=
  ⟨rfl, by decide, by decide⟩

/-- C6 (amended): for elastic-IP deletion the v1 fallback is issued exactly
when the v3 request completes with HTTP status 404 or 405 (transport errors
propagate, any other status is returned as-is, and when the fallback runs its
result is returned); for elastic-IP listing the v1 fallback is issued exactly
when the v3 `send_json` attempt fails for any reason (a v3 success is
returned directly); other endpoints issue one fixed-version request whose
error propagates without any retry. -/
theorem eip_fallback_conditions :
    (∀ v3 v1 p3 p1, (list_eips_model v3 v1 p3 p1).2 = true ↔
      ∃ e, send_json_model v3 p3 = .error e)
    ∧ (∀ v3 v1 p3 p1 r, send_json_model v3 p3 = .ok r →
        list_eips_model v3 v1 p3 p1 = (.ok r, false))
    ∧ (∀ v3 v1, (delete_eip_model v3 v1).2 = true ↔
        ∃ b, v3 = HttpOutcome.response 404 b ∨ v3 = HttpOutcome.response 405 b)
    ∧ (∀ v1 s b, s ≠ 404 → s ≠ 405 →
        delete_eip_model (HttpOutcome.response s b) v1 = (.ok (s, b), false))
    ∧ (∀ v1 m, delete_eip_model (HttpOutcome.transportError m) v1 =
        (.error ("Request failed: " ++ m), false))
    ∧ (∀ v3 v1, (delete_eip_model v3 v1).2 = true →
        (delete_eip_model v3 v1).1 = send_raw_model v1)
    ∧ (∀ o p e, send_json_model o p = .error e →
        list_ecses_model o p = .error ("Failed to list ECSes: " ++ e)) := by
  refine ⟨?_, ?_, ?_, ?_, ?_, ?_, ?_⟩
  · intro v3 v1 p3 p1
    constructor
    · intro hfb
      cases hs : send_json_model v3 p3 with
      | ok r => rw [list_eips_model, hs] at hfb; exact absurd hfb (by simp)
      | error e => exact ⟨e, rfl⟩
    · rintro ⟨e, hs⟩
      rw [list_eips_model, hs]
  · intro v3 v1 p3 p1 r hs
    rw [list_eips_model, hs]
  · intro v3 v1
    cases v3 with
    | transportError m => simp [delete_eip_model, send_raw_model]
    | response s b =>
        by_cases h4 : s = 404
        · subst h4
          simp [delete_eip_model, send_raw_model]
        · by_cases h5 : s = 405
          · subst h5
            simp [delete_eip_model, send_raw_model]
          · simp [delete_eip_model, send_raw_model, h4, h5]
  · intro v1 s b h4 h5
    simp [delete_eip_model, send_raw_model, h4, h5]
  · intro v1 m
    rfl
  · intro v3 v1 hfb
    cases v3 with
    | transportError m => exact absurd hfb (by simp [delete_eip_model, send_raw_model])
    | response s b =>
        by_cases h4 : s = 404
        · subst h4; simp [delete_eip_model, send_raw_model]
        · by_cases h5 : s = 405
          · subst h5; simp [delete_eip_model, send_raw_model]
          · exact absurd hfb (by simp [delete_eip_model, send_raw_model, h4, h5])
  · intro o p e hs
    rw [list_ecses_model, hs]

/-- C6 (witness): the amended fallback conditions applied at concrete
outcomes — a clean v3 success for listing and a `204` v3 response for
deletion, neither of which issues the v1 request. -/
theorem eip_fallback_conditions_witness :
    list_eips_model (HttpOutcome.response 200 "ok") (HttpOutcome.response 200 "other") true true =
      (Except.ok "ok", false)
    ∧ delete_eip_model (HttpOutcome.response 204 "") (HttpOutcome.response 200 "x") =
      (Except.ok (204, ""), false) :=
  ⟨(eip_fallback_conditions).2.1 (HttpOutcome.response 200 "ok")
      (HttpOutcome.response 200 "other") true true "ok" rfl,
   (eip_fallback_conditions).2.2.2.1 (HttpOutcome.response 200 "x") 204 ""
      (by decide) (by decide)⟩

/-- C4: every mutating session operation (`exec`, `resize`, `send_control`) on
session id `s`: with no entry for `s` it fails with a "no session" error and
the registry is unchanged; with an entry, the entry is removed before the I/O
and reinserted exactly when the I/O succeeds (the registry is then observably
unchanged); on I/O failure the entry is not reinserted — the registry has no
entry for `s` — and its background reader task is aborted, other sessions
being untouched. -/
theorem mutating_session_ops_protocol :
    (∀ (st : SshState) (rawSid rawCmd : String) (ioOk : Bool),
      rustTrim rawSid ≠ "" → rustTrim rawCmd ≠ "" →
      (lookupS st.sessions (rustTrim rawSid) = none →
        ssh_exec st ⟨rawSid, rawCmd⟩ ioOk =
          (.error ("No SSH connection found for session " ++ rustTrim rawSid ++ "."), st, []))
      ∧ (∀ e, lookupS st.sessions (rustTrim rawSid) = some e →
          ((ssh_exec st ⟨rawSid, rawCmd⟩ true).1 =
              .ok ⟨rustTrim rawSid, rustTrim rawCmd, "", "", none⟩
            ∧ (∀ k, lookupS (ssh_exec st ⟨rawSid, rawCmd⟩ true).2.1.sessions k =
                lookupS st.sessions k)
            ∧ (ssh_exec st ⟨rawSid, rawCmd⟩ true).2.1.tasks = st.tasks)
          ∧ ((ssh_exec st ⟨rawSid, rawCmd⟩ false).1 =
              .error "Failed to send command to live SSH shell."
            ∧ lookupS (ssh_exec st ⟨rawSid, rawCmd⟩ false).2.1.sessions
                (rustTrim rawSid) = none
            ∧ (ssh_exec st ⟨rawSid, rawCmd⟩ false).2.1.tasks = abortTask st.tasks e.taskId
            ∧ (∀ k, k ≠ rustTrim rawSid →
                lookupS (ssh_exec st ⟨rawSid, rawCmd⟩ false).2.1.sessions k =
                  lookupS st.sessions k))))
    ∧ (∀ (st : SshState) (rawSid : String) (cols rows : Nat) (pw ph : Option Nat)
        (ioOk : Bool), rustTrim rawSid ≠ "" →
      (lookupS st.sessions (rustTrim rawSid) = none →
        ssh_resize st ⟨rawSid, cols, rows, pw, ph⟩ ioOk =
          (.error ("No SSH connection found for session " ++ rustTrim rawSid ++ "."), st, []))
      ∧ (∀ e, lookupS st.sessions (rustTrim rawSid) = some e →
          ((ssh_resize st ⟨rawSid, cols, rows, pw, ph⟩ true).1 =
              .ok ⟨rustTrim rawSid, rustClamp cols 40 400, rustClamp rows 10 180⟩
            ∧ (∀ k, lookupS (ssh_resize st ⟨rawSid, cols, rows, pw, ph⟩ true).2.1.sessions k =
                lookupS st.sessions k)
            ∧ (ssh_resize st ⟨rawSid, cols, rows, pw, ph⟩ true).2.1.tasks = st.tasks)
          ∧ ((ssh_resize st ⟨rawSid, cols, rows, pw, ph⟩ false).1 =
              .error ("Failed to resize SSH PTY for session " ++ rustTrim rawSid ++ ".")
            ∧ lookupS (ssh_resize st ⟨rawSid, cols, rows, pw, ph⟩ false).2.1.sessions
                (rustTrim rawSid) = none
            ∧ (ssh_resize st ⟨rawSid, cols, rows, pw, ph⟩ false).2.1.tasks =
                abortTask st.tasks e.taskId
            ∧ (∀ k, k ≠ rustTrim rawSid →
                lookupS (ssh_resize st ⟨rawSid, cols, rows, pw, ph⟩ false).2.1.sessions k =
                  lookupS st.sessions k))))
    ∧ (∀ (st : SshState) (rawSid rawCtl : String) (ioOk : Bool) (b : Nat),
        rustTrim rawSid ≠ "" → control_char_from_input (rustTrim rawCtl) = .ok b →
      (lookupS st.sessions (rustTrim rawSid) = none →
        ssh_send_control st ⟨rawSid, rawCtl⟩ ioOk =
          (.error ("No SSH connection found for session " ++ rustTrim rawSid ++ "."), st, []))
      ∧ (∀ e, lookupS st.sessions (rustTrim rawSid) = some e →
          ((ssh_send_control st ⟨rawSid, rawCtl⟩ true).1 =
              .ok ⟨rustTrim rawSid, rustTrim rawCtl, true⟩
            ∧ (∀ k, lookupS (ssh_send_control st ⟨rawSid, rawCtl⟩ true).2.1.sessions k =
                lookupS st.sessions k)
            ∧ (ssh_send_control st ⟨rawSid, rawCtl⟩ true).2.1.tasks = st.tasks)
          ∧ ((ssh_send_control st ⟨rawSid, rawCtl⟩ false).1 =
              .error ("Failed to send " ++ rustTrim rawCtl ++ " to SSH session " ++
                rustTrim rawSid ++ ".")
            ∧ lookupS (ssh_send_control st ⟨rawSid, rawCtl⟩ false).2.1.sessions
                (rustTrim rawSid) = none
            ∧ (ssh_send_control st ⟨rawSid, rawCtl⟩ false).2.1.tasks =
                abortTask st.tasks e.taskId
            ∧ (∀ k, k ≠ rustTrim rawSid →
                lookupS (ssh_send_control st ⟨rawSid, rawCtl⟩ false).2.1.sessions k =
                  lookupS st.sessions k)))) := by
  refine ⟨?_, ?_, ?_⟩
  · intro st rawSid rawCmd ioOk hs hc
    constructor
    · intro hlook
      simp only [ssh_exec, normalize_ok rawSid hs, if_neg hc, hlook, if_neg Bool.false_ne_true]
    · intro e hlook
      refine ⟨⟨?_, ?_, ?_⟩, ?_, ?_, ?_, ?_⟩
      · simp only [ssh_exec, normalize_ok rawSid hs, if_neg hc, hlook, if_pos]
      · intro k
        simp only [ssh_exec, normalize_ok rawSid hs, if_neg hc, hlook, if_pos]
        exact lookupS_reinsert st.sessions (rustTrim rawSid) e hlook k
      · simp only [ssh_exec, normalize_ok rawSid hs, if_neg hc, hlook, if_pos]
      · simp only [ssh_exec, normalize_ok rawSid hs, if_neg hc, hlook, if_neg Bool.false_ne_true]
      · simp only [ssh_exec, normalize_ok rawSid hs, if_neg hc, hlook, if_neg Bool.false_ne_true]
        rw [lookupS_removeS, if_pos rfl]
      · simp only [ssh_exec, normalize_ok rawSid hs, if_neg hc, hlook, if_neg Bool.false_ne_true]
      · intro k hk
        simp only [ssh_exec, normalize_ok rawSid hs, if_neg hc, hlook, if_neg Bool.false_ne_true]
        rw [lookupS_removeS, if_neg hk]
  · intro st rawSid cols rows pw ph ioOk hs
    constructor
    · intro hlook
      simp only [ssh_resize, normalize_ok rawSid hs, hlook, if_neg Bool.false_ne_true]
    · intro e hlook
      refine ⟨⟨?_, ?_, ?_⟩, ?_, ?_, ?_, ?_⟩
      · simp only [ssh_resize, normalize_ok rawSid hs, hlook, if_pos]
      · intro k
        simp only [ssh_resize, normalize_ok rawSid hs, hlook, if_pos]
        exact lookupS_reinsert st.sessions (rustTrim rawSid) e hlook k
      · simp only [ssh_resize, normalize_ok rawSid hs, hlook, if_pos]
      · simp only [ssh_resize, normalize_ok rawSid hs, hlook, if_neg Bool.false_ne_true]
      · simp only [ssh_resize, normalize_ok rawSid hs, hlook, if_neg Bool.false_ne_true]
        rw [lookupS_removeS, if_pos rfl]
      · simp only [ssh_resize, normalize_ok rawSid hs, hlook, if_neg Bool.false_ne_true]
      · intro k hk
        simp only [ssh_resize, normalize_ok rawSid hs, hlook, if_neg Bool.false_ne_true]
        rw [lookupS_removeS, if_neg hk]
  · intro st rawSid rawCtl ioOk b hs hctl
    constructor
    · intro hlook
      simp only [ssh_send_control, normalize_ok rawSid hs, hctl, hlook, if_neg Bool.false_ne_true]
    · intro e hlook
      refine ⟨⟨?_, ?_, ?_⟩, ?_, ?_, ?_, ?_⟩
      · simp only [ssh_send_control, normalize_ok rawSid hs, hctl, hlook, if_pos]
      · intro k
        simp only [ssh_send_control, normalize_ok rawSid hs, hctl, hlook, if_pos]
        exact lookupS_reinsert st.sessions (rustTrim rawSid) e hlook k
      · simp only [ssh_send_control, normalize_ok rawSid hs, hctl, hlook, if_pos]
      · simp only [ssh_send_control, normalize_ok rawSid hs, hctl, hlook, if_neg Bool.false_ne_true]
      · simp only [ssh_send_control, normalize_ok rawSid hs, hctl, hlook, if_neg Bool.false_ne_true]
        rw [lookupS_removeS, if_pos rfl]
      · simp only [ssh_send_control, normalize_ok rawSid hs, hctl, hlook, if_neg Bool.false_ne_true]
      · intro k hk
        simp only [ssh_send_control, normalize_ok rawSid hs, hctl, hlook, if_neg Bool.false_ne_true]
        rw [lookupS_removeS, if_neg hk]

/-- C4 (witness): the protocol applied at a concrete one-session state — a
missing id fails as "no session" leaving the one-entry registry unchanged, and
a successful exec on the present id leaves its lookup unchanged. -/
theorem mutating_session_ops_protocol_witness :
    ssh_exec ⟨[("s1", ⟨0, "h", 22, "root"⟩)], [⟨0, "s1", false⟩], 1⟩ ⟨"s2", "ls"⟩ true =
      (.error "No SSH connection found for session s2.",
        ⟨[("s1", ⟨0, "h", 22, "root"⟩)], [⟨0, "s1", false⟩], 1⟩, [])
    ∧ lookupS (ssh_exec ⟨[("s1", ⟨0, "h", 22, "root"⟩)], [⟨0, "s1", false⟩], 1⟩
        ⟨"s1", "ls"⟩ true).2.1.sessions "s1" = some ⟨0, "h", 22, "root"⟩ :=
  ⟨(mutating_session_ops_protocol.1 ⟨[("s1", ⟨0, "h", 22, "root"⟩)], [⟨0, "s1", false⟩], 1⟩
      "s2" "ls" true (by decide) (by decide)).1 (by decide),
   by
    rw [(mutating_session_ops_protocol.1 ⟨[("s1", ⟨0, "h", 22, "root"⟩)], [⟨0, "s1", false⟩], 1⟩
      "s1" "ls" true (by decide) (by decide)).2 ⟨0, "h", 22, "root"⟩ (by decide)
      |>.1.2.1 "s1"]
    decide⟩

/-- C9: if `connect` passes input validation and any later step (transport,
authentication, channel open, PTY request, shell request) fails, the registry
holds no entry for the session id when the call returns: a previously live
session under that id was already evicted — reader task aborted, graceful
disconnect attempted — and is not restored, no new entry is inserted, and
other sessions are untouched; with no previous session the state is returned
unchanged. -/
theorem connect_failure_leaves_no_entry (st : SshState) (rawSid rawHost : String)
    (port : Option Nat) (username : Option String) (rawPw : String) (f : ConnectFailure)
    (hs : rustTrim rawSid ≠ "") (hh : rustTrim rawHost ≠ "") (hp : rustTrim rawPw ≠ "") :
    (∃ e, (ssh_connect st ⟨rawSid, rawHost, port, username, rawPw⟩ (some f)).1 = .error e)
    ∧ lookupS (ssh_connect st ⟨rawSid, rawHost, port, username, rawPw⟩ (some f)).2.1.sessions
        (rustTrim rawSid) = none
    ∧ (∀ k, k ≠ rustTrim rawSid →
        lookupS (ssh_connect st ⟨rawSid, rawHost, port, username, rawPw⟩ (some f)).2.1.sessions
          k = lookupS st.sessions k)
    ∧ (∀ e, lookupS st.sessions (rustTrim rawSid) = some e →
        (ssh_connect st ⟨rawSid, rawHost, port, username, rawPw⟩ (some f)).2.1.tasks =
          abortTask st.tasks e.taskId
        ∧ SshAction.abortReader e.taskId ∈
            (ssh_connect st ⟨rawSid, rawHost, port, username, rawPw⟩ (some f)).2.2
        ∧ SshAction.gracefulDisconnect true ∈
            (ssh_connect st ⟨rawSid, rawHost, port, username, rawPw⟩ (some f)).2.2)
    ∧ (lookupS st.sessions (rustTrim rawSid) = none →
        (ssh_connect st ⟨rawSid, rawHost, port, username, rawPw⟩ (some f)).2.1 = st
        ∧ (ssh_connect st ⟨rawSid, rawHost, port, username, rawPw⟩ (some f)).2.2 = []) := by
  cases hstale : lookupS st.sessions (rustTrim rawSid) with
  | some e =>
      refine ⟨?_, ?_, ?_, ?_, ?_⟩
      · cases f <;>
          · simp only [ssh_connect, normalize_ok rawSid hs, if_neg hh, if_neg hp, hstale]
            exact ⟨_, rfl⟩
      · cases f <;>
          · simp only [ssh_connect, normalize_ok rawSid hs, if_neg hh, if_neg hp, hstale]
            rw [lookupS_removeS, if_pos rfl]
      · intro k hk
        cases f <;>
          · simp only [ssh_connect, normalize_ok rawSid hs, if_neg hh, if_neg hp, hstale]
            rw [lookupS_removeS, if_neg hk]
      · intro e' he'
        obtain rfl : e = e' := by injection he'
        cases f <;>
          · simp only [ssh_connect, normalize_ok rawSid hs, if_neg hh, if_neg hp, hstale]
            exact ⟨trivial, by simp, by simp⟩
      · intro hnone
        exact absurd hnone (by simp)
  | none =>
      refine ⟨?_, ?_, ?_, ?_, ?_⟩
      · cases f <;>
          · simp only [ssh_connect, normalize_ok rawSid hs, if_neg hh, if_neg hp, hstale]
            exact ⟨_, rfl⟩
      · cases f <;>
          · simp only [ssh_connect, normalize_ok rawSid hs, if_neg hh, if_neg hp, hstale]
            rw [removeS_of_lookup_none st.sessions (rustTrim rawSid) hstale]
            exact hstale
      · intro k hk
        cases f <;>
          · simp only [ssh_connect, normalize_ok rawSid hs, if_neg hh, if_neg hp, hstale]
            rw [removeS_of_lookup_none st.sessions (rustTrim rawSid) hstale]
      · intro e' he'
        exact absurd he' (by simp)
      · intro _
        cases f <;>
          · simp only [ssh_connect, normalize_ok rawSid hs, if_neg hh, if_neg hp, hstale]
            refine ⟨?_, trivial⟩
            rw [removeS_of_lookup_none st.sessions (rustTrim rawSid) hstale]

/-- C9 (witness): a transport-phase failure on a state holding a live session
under the same id evicts it: the lookup afterwards is `none` and the old
reader task is aborted in the post-state. -/
theorem connect_failure_leaves_no_entry_witness :
    lookupS (ssh_connect ⟨[("s1", ⟨0, "h", 22, "root"⟩)], [⟨0, "s1", false⟩], 1⟩
        ⟨"s1", "host2", none, none, "pw"⟩ (some ConnectFailure.transport)).2.1.sessions
      "s1" = none
    ∧ (ssh_connect ⟨[("s1", ⟨0, "h", 22, "root"⟩)], [⟨0, "s1", false⟩], 1⟩
        ⟨"s1", "host2", none, none, "pw"⟩ (some ConnectFailure.transport)).2.1.tasks =
      abortTask [⟨0, "s1", false⟩] 0 :=
  ⟨(connect_failure_leaves_no_entry ⟨[("s1", ⟨0, "h", 22, "root"⟩)], [⟨0, "s1", false⟩], 1⟩
      "s1" "host2" none none "pw" ConnectFailure.transport
      (by decide) (by decide) (by decide)).2.1,
   ((connect_failure_leaves_no_entry ⟨[("s1", ⟨0, "h", 22, "root"⟩)], [⟨0, "s1", false⟩], 1⟩
      "s1" "host2" none none "pw" ConnectFailure.transport
      (by decide) (by decide) (by decide)).2.2.2.1 ⟨0, "h", 22, "root"⟩ (by decide)).1⟩

/-- C5: the registry holds at most one `SessionEntry` per session id at every
point — well-formedness (unique keys, and exactly one live reader task per
registered session) is preserved by every operation — and `connect` first
evicts any existing entry, so after a successful connect exactly one entry and
exactly one live reader task exist for the id, the replaced session's reader
task being aborted. -/
theorem session_registry_invariant :
    (∀ st params outcome, wf st = true → wf (ssh_connect st params outcome).2.1 = true)
    ∧ (∀ st params ioOk, wf st = true → wf (ssh_exec st params ioOk).2.1 = true)
    ∧ (∀ st params ioOk, wf st = true → wf (ssh_resize st params ioOk).2.1 = true)
    ∧ (∀ st params ioOk, wf st = true → wf (ssh_send_control st params ioOk).2.1 = true)
    ∧ (∀ st params, wf st = true → wf (ssh_disconnect st params).2.1 = true)
    ∧ (∀ st params r, wf st = true → (ssh_connect st params none).1 = .ok r →
        lookupS (ssh_connect st params none).2.1.sessions r.session_id =
          some ⟨st.nextTask, r.host, r.port, r.username⟩
        ∧ liveTasksFor (ssh_connect st params none).2.1.tasks r.session_id =
            [⟨st.nextTask, r.session_id, false⟩]
        ∧ (∀ e, lookupS st.sessions r.session_id = some e →
            ∀ t ∈ (ssh_connect st params none).2.1.tasks,
              t.tid = e.taskId → t.aborted = true)) := by
  refine ⟨?_, ?_, ?_, ?_, ?_, ?_⟩
  · intro st params outcome hwf
    cases hnorm : normalize_ssh_session_id params.session_id with
    | error err => simpa only [ssh_connect, hnorm] using hwf
    | ok sid =>
        by_cases hhost : rustTrim params.host = ""
        · simpa only [ssh_connect, hnorm, if_pos hhost] using hwf
        · by_cases hpw : rustTrim params.password = ""
          · simpa only [ssh_connect, hnorm, if_neg hhost, if_pos hpw] using hwf
          · cases hstale : lookupS st.sessions sid with
            | none =>
                cases outcome with
                | some f =>
                    cases f <;>
                      · simp only [ssh_connect, hnorm, if_neg hhost, if_neg hpw, hstale]
                        rw [removeS_of_lookup_none st.sessions sid hstale]
                        exact hwf
                | none =>
                    simp only [ssh_connect, hnorm, if_neg hhost, if_neg hpw, hstale]
                    rw [removeS_of_lookup_none st.sessions sid hstale]
                    exact wf_connect_insert st sid (rustTrim params.host) _ _ hwf hstale
            | some e =>
                cases outcome with
                | some f =>
                    cases f <;>
                      · simp only [ssh_connect, hnorm, if_neg hhost, if_neg hpw, hstale]
                        exact wf_evict st sid e hwf hstale
                | none =>
                    simp only [ssh_connect, hnorm, if_neg hhost, if_neg hpw, hstale]
                    exact wf_connect_insert
                      ⟨removeS st.sessions sid, abortTask st.tasks e.taskId, st.nextTask⟩
                      sid (rustTrim params.host) _ _
                      (wf_evict st sid e hwf hstale)
                      (by rw [lookupS_removeS, if_pos rfl])
  · intro st params ioOk hwf
    cases hnorm : normalize_ssh_session_id params.session_id with
    | error err => simpa only [ssh_exec, hnorm] using hwf
    | ok sid =>
        by_cases hcmd : rustTrim params.command = ""
        · simpa only [ssh_exec, hnorm, if_pos hcmd] using hwf
        · cases hlook : lookupS st.sessions sid with
          | none => simpa only [ssh_exec, hnorm, if_neg hcmd, hlook] using hwf
          | some e =>
              cases ioOk
              · simp only [ssh_exec, hnorm, if_neg hcmd, hlook, if_neg Bool.false_ne_true]
                exact wf_evict st sid e hwf hlook
              · simp only [ssh_exec, hnorm, if_neg hcmd, hlook, if_pos]
                exact wf_reinsert st sid e hwf hlook
  · intro st params ioOk hwf
    cases hnorm : normalize_ssh_session_id params.session_id with
    | error err => simpa only [ssh_resize, hnorm] using hwf
    | ok sid =>
        cases hlook : lookupS st.sessions sid with
        | none => simpa only [ssh_resize, hnorm, hlook] using hwf
        | some e =>
            cases ioOk
            · simp only [ssh_resize, hnorm, hlook, if_neg Bool.false_ne_true]
              exact wf_evict st sid e hwf hlook
            · simp only [ssh_resize, hnorm, hlook, if_pos]
              exact wf_reinsert st sid e hwf hlook
  · intro st params ioOk hwf
    cases hnorm : normalize_ssh_session_id params.session_id with
    | error err => simpa only [ssh_send_control, hnorm] using hwf
    | ok sid =>
        cases hctl : control_char_from_input (rustTrim params.control) with
        | error err => simpa only [ssh_send_control, hnorm, hctl] using hwf
        | ok b =>
            cases hlook : lookupS st.sessions sid with
            | none => simpa only [ssh_send_control, hnorm, hctl, hlook] using hwf
            | some e =>
                cases ioOk
                · simp only [ssh_send_control, hnorm, hctl, hlook,
                    if_neg Bool.false_ne_true]
                  exact wf_evict st sid e hwf hlook
                · simp only [ssh_send_control, hnorm, hctl, hlook, if_pos]
                  exact wf_reinsert st sid e hwf hlook
  · intro st params hwf
    cases hnorm : normalize_ssh_session_id params.session_id with
    | error err => simpa only [ssh_disconnect, hnorm] using hwf
    | ok sid =>
        cases hlook : lookupS st.sessions sid with
        | none => simpa only [ssh_disconnect, hnorm, hlook] using hwf
        | some e =>
            simp only [ssh_disconnect, hnorm, hlook]
            exact wf_evict st sid e hwf hlook
  · intro st params r hwf hok
    cases hnorm : normalize_ssh_session_id params.session_id with
    | error err =>
        rw [show (ssh_connect st params none).1 =
          .error err from by simp only [ssh_connect, hnorm]] at hok
        cases hok
    | ok sid =>
        by_cases hhost : rustTrim params.host = ""
        · rw [show (ssh_connect st params none).1 =
            .error "SSH host is required." from by
              simp only [ssh_connect, hnorm, if_pos hhost]] at hok
          cases hok
        · by_cases hpw : rustTrim params.password = ""
          · rw [show (ssh_connect st params none).1 =
              .error "SSH password is required." from by
                simp only [ssh_connect, hnorm, if_neg hhost, if_pos hpw]] at hok
            cases hok
          · rw [wf_iff] at hwf
            obtain ⟨hk, htn, hlt, hlive, hreg⟩ := hwf
            cases hstale : lookupS st.sessions sid with
            | none =>
                rw [show (ssh_connect st params none).1 = .ok ⟨sid, rustTrim params.host,
                    params.port.getD 22,
                    match params.username.map rustTrim with
                    | some u => if u = "" then "root" else u
                    | none => "root"⟩ from by
                  simp only [ssh_connect, hnorm, if_neg hhost, if_neg hpw, hstale]] at hok
                injection hok with hr
                subst hr
                refine ⟨?_, ?_, ?_⟩
                · simp only [ssh_connect, hnorm, if_neg hhost, if_neg hpw, hstale]
                  rw [lookupS_insertS, if_pos rfl]
                · simp only [ssh_connect, hnorm, if_neg hhost, if_neg hpw, hstale]
                  rw [liveTasksFor_append,
                    liveTasksFor_nil_of_unreg st sid hreg hstale, List.nil_append,
                    liveTasksFor_singleton_self]
                · intro e he
                  rw [hstale] at he
                  cases he
            | some e0 =>
                rw [show (ssh_connect st params none).1 = .ok ⟨sid, rustTrim params.host,
                    params.port.getD 22,
                    match params.username.map rustTrim with
                    | some u => if u = "" then "root" else u
                    | none => "root"⟩ from by
                  simp only [ssh_connect, hnorm, if_neg hhost, if_neg hpw, hstale]] at hok
                injection hok with hr
                subst hr
                have hτe : (⟨e0.taskId, sid, false⟩ : TaskRec) ∈ st.tasks := by
                  have hsℓ := hlive (sid, e0) (lookupS_some_mem _ _ _ hstale)
                  have hmem : (⟨e0.taskId, sid, false⟩ : TaskRec) ∈
                      liveTasksFor st.tasks sid := by
                    rw [hsℓ]
                    exact List.mem_singleton_self _
                  exact ((mem_liveTasksFor _ _ _).mp hmem).1
                refine ⟨?_, ?_, ?_⟩
                · simp only [ssh_connect, hnorm, if_neg hhost, if_neg hpw, hstale]
                  rw [lookupS_insertS, if_pos rfl]
                · simp only [ssh_connect, hnorm, if_neg hhost, if_neg hpw, hstale]
                  rw [liveTasksFor_append, liveTasksFor_abortTask,
                    hlive (sid, e0) (lookupS_some_mem _ _ _ hstale), List.filter_cons,
                    if_neg (by simp), List.filter_nil, List.nil_append,
                    liveTasksFor_singleton_self]
                · intro e he
                  rw [hstale] at he
                  obtain rfl : e0 = e := by injection he
                  intro t ht htid
                  simp only [ssh_connect, hnorm, if_neg hhost, if_neg hpw, hstale] at ht
                  rcases List.mem_append.mp ht with hmem | hmem
                  · obtain ⟨t0, ht0, hform⟩ := abortTask_mem _ _ _ hmem
                    subst hform
                    by_cases h0 : t0.tid = e0.taskId
                    · rw [if_pos h0]
                    · rw [if_neg h0] at htid ⊢
                      exact absurd htid h0
                  · obtain rfl : t = ⟨st.nextTask, sid, false⟩ := by simpa using hmem
                    have hlt0 : e0.taskId < st.nextTask := hlt _ hτe
                    have heq : st.nextTask = e0.taskId := htid
                    exact absurd heq (by omega)

/-- C5 (witness): reconnecting under an id that already holds a live session
keeps the state well-formed, and afterwards the id maps to the fresh entry
with exactly one live reader task — the replacement's. -/
theorem session_registry_invariant_witness :
    wf (ssh_connect ⟨[("s1", ⟨0, "h", 22, "root"⟩)], [⟨0, "s1", false⟩], 1⟩
        ⟨"s1", "h2", none, none, "pw"⟩ none).2.1 = true
    ∧ lookupS (ssh_connect ⟨[("s1", ⟨0, "h", 22, "root"⟩)], [⟨0, "s1", false⟩], 1⟩
        ⟨"s1", "h2", none, none, "pw"⟩ none).2.1.sessions "s1" = some ⟨1, "h2", 22, "root"⟩
    ∧ liveTasksFor (ssh_connect ⟨[("s1", ⟨0, "h", 22, "root"⟩)], [⟨0, "s1", false⟩], 1⟩
        ⟨"s1", "h2", none, none, "pw"⟩ none).2.1.tasks "s1" = [⟨1, "s1", false⟩] :=
  ⟨session_registry_invariant.1 ⟨[("s1", ⟨0, "h", 22, "root"⟩)], [⟨0, "s1", false⟩], 1⟩
      ⟨"s1", "h2", none, none, "pw"⟩ none (by decide),
   (session_registry_invariant.2.2.2.2.2 ⟨[("s1", ⟨0, "h", 22, "root"⟩)], [⟨0, "s1", false⟩], 1⟩
      ⟨"s1", "h2", none, none, "pw"⟩ ⟨"s1", "h2", 22, "root"⟩ (by decide) rfl).1,
   (session_registry_invariant.2.2.2.2.2 ⟨[("s1", ⟨0, "h", 22, "root"⟩)], [⟨0, "s1", false⟩], 1⟩
      ⟨"s1", "h2", none, none, "pw"⟩ ⟨"s1", "h2", 22, "root"⟩ (by decide) rfl).2.1⟩

/-- C7: every one-shot execution that reaches the command phase attempts
channel end-of-file, channel close and connection disconnect — in that order —
before returning, whatever the message stream looked like (including ending
mid-stream with no exit status); and the teardown outcomes never change the
reported stdout/stderr/exit-status result, which is exactly the message-loop
aggregate. -/
theorem one_shot_always_tears_down (rawSid rawHost : String) (port : Option Nat)
    (username : Option String) (rawPw rawCmd : String) (msgs : List ChannelMsg)
    (eofOk closeOk disconnectOk : Bool)
    (hs : rustTrim rawSid ≠ "") (hh : rustTrim rawHost ≠ "") (hc : rustTrim rawCmd ≠ "")
    (hp : rustTrim rawPw ≠ "") :
    (ssh_exec_one_shot ⟨rawSid, rawHost, port, username, rawPw, rawCmd⟩ none msgs
        eofOk closeOk disconnectOk).2 =
      [.channelEof eofOk, .channelClose closeOk, .gracefulDisconnect disconnectOk]
    ∧ (∃ r, (ssh_exec_one_shot ⟨rawSid, rawHost, port, username, rawPw, rawCmd⟩ none msgs
          eofOk closeOk disconnectOk).1 = .ok r
        ∧ r.stdout = (oneShotLoop msgs).1
        ∧ r.stderr = (oneShotLoop msgs).2.1
        ∧ r.exit_status = (oneShotLoop msgs).2.2)
    ∧ (ssh_exec_one_shot ⟨rawSid, rawHost, port, username, rawPw, rawCmd⟩ none msgs
        eofOk closeOk disconnectOk).1 =
      (ssh_exec_one_shot ⟨rawSid, rawHost, port, username, rawPw, rawCmd⟩ none msgs
        true true true).1 := by
  refine ⟨?_, ?_, ?_⟩
  · simp only [ssh_exec_one_shot, normalize_ok rawSid hs, if_neg hh, if_neg hc, if_neg hp]
  · refine ⟨⟨rustTrim rawSid, rustTrim rawHost, port.getD 22,
      (match username.map rustTrim with
       | some u => if u = "" then "root" else u
       | none => "root"), rustTrim rawCmd,
      (oneShotLoop msgs).1, (oneShotLoop msgs).2.1, (oneShotLoop msgs).2.2⟩, ?_, rfl, rfl, rfl⟩
    simp only [ssh_exec_one_shot, normalize_ok rawSid hs, if_neg hh, if_neg hc, if_neg hp]
  · simp only [ssh_exec_one_shot, normalize_ok rawSid hs, if_neg hh, if_neg hc, if_neg hp]

/-- C7 (witness): a concrete run whose stream ends mid-command (no exit
status, no close): teardown is still attempted with the failing outcomes, and
the result equals the one with clean teardown. -/
theorem one_shot_always_tears_down_witness :
    (ssh_exec_one_shot ⟨"s1", "h", none, none, "pw", "ls"⟩ none
        [ChannelMsg.data "par", ChannelMsg.data "tial"] false false false).2 =
      [SshAction.channelEof false, SshAction.channelClose false,
        SshAction.gracefulDisconnect false]
    ∧ (ssh_exec_one_shot ⟨"s1", "h", none, none, "pw", "ls"⟩ none
        [ChannelMsg.data "par", ChannelMsg.data "tial"] false false false).1 =
      (ssh_exec_one_shot ⟨"s1", "h", none, none, "pw", "ls"⟩ none
        [ChannelMsg.data "par", ChannelMsg.data "tial"] true true true).1 :=
  ⟨(one_shot_always_tears_down "s1" "h" none none "pw" "ls"
      [ChannelMsg.data "par", ChannelMsg.data "tial"] false false false
      (by decide) (by decide) (by decide) (by decide)).1,
   (one_shot_always_tears_down "s1" "h" none none "pw" "ls"
      [ChannelMsg.data "par", ChannelMsg.data "tial"] false false false
      (by decide) (by decide) (by decide) (by decide)).2.2⟩

end HcForge
